import Mathlib

/-!
# A shallow embedding of TypeORM's `InsertQueryBuilder`

This file embeds `src/query-builder/InsertQueryBuilder.ts` — the multi-dialect
INSERT statement compiler and its execution orchestrator — into Lean and proves
the specification's claims about it.

Modelling conventions:
* JavaScript runtime values appearing in a value set are the inductive `Value`
  (`undef` is the `undefined` sentinel, `null` is SQL null, `func` is the
  raw-SQL-expression callable marker).
* The compiled SQL is a list of fragments (`Frag`): plain text pieces and
  parameter placeholders.  `Frag.render` turns a fragment into the literal SQL
  text; the placeholder text is the one the base query builder's
  `createParameter` produces.  The flat parameter array is threaded through a
  `CompileState`.
* Driver objects (`PostgresDriver`, `MysqlDriver`, …) are not under `src/`;
  following the spec's Dialect Capability Descriptor they are modelled as a
  record of capability flags plus the driver-supplied value-normalisation and
  escaping functions, and a `kind` tag standing for the `instanceof` checks.
* Fallible code returns `Except TypeORMError`.
-/

namespace TypeormInsert

/-- A JavaScript value as it can appear in a value set: the `undefined`
sentinel, `null`, a primitive (string / integer / boolean), or a callable
raw-SQL-expression marker (`value instanceof Function`). -/
inductive Value where
  | undef : Value
  | null : Value
  | str : String → Value
  | int : Int → Value
  | bool : Bool → Value
  | func : String → Value
deriving DecidableEq, Repr

/-- `value instanceof Function` -/
def Value.isFunc : Value → Bool
  | .func _ => true
  | _ => false

/-- The raw SQL text produced by invoking a callable expression marker. -/
def Value.funcSql : Value → String
  | .func s => s
  | _ => ""

/-- `ColumnMetadata.generationStrategy` values the compiler inspects. -/
inductive GenStrategy where
  | increment : GenStrategy
  | uuid : GenStrategy
  | rowid : GenStrategy
deriving DecidableEq, Repr

/-- The slice of `ColumnMetadata` the insert compiler reads (schema metadata is
an external, read-only collaborator). -/
structure ColumnMetadata where
  propertyPath : String
  databaseName : String
  isPrimary : Bool := false
  isGenerated : Bool := false
  generationStrategy : Option GenStrategy := none
  isInsert : Bool := true
  isVersion : Bool := false
  isDiscriminator : Bool := false
  defaultValue : Value := Value.undef
  columnType : String := ""
  srid : Option Int := none
deriving DecidableEq, Repr

/-- A value set: one record's column→value mapping (`ObjectLiteral`).  Lookup
follows JavaScript property access: the first binding for a key wins and a
missing key reads as `undefined`. -/
abbrev ValueSet := List (String × Value)

/-- `column.getEntityValue(valueSet)` (flattened property paths). -/
def getEntityValue (column : ColumnMetadata) (vs : ValueSet) : Value :=
  match vs.lookup column.propertyPath with
  | some v => v
  | none => Value.undef

/-- `column.setEntityValue(obj, value)`: property write, modelled by a
shadowing prepend. -/
def setEntityValue (column : ColumnMetadata) (v : Value) (vs : ValueSet) : ValueSet :=
  (column.propertyPath, v) :: vs

/-- The slice of `EntityMetadata` the insert compiler reads. -/
structure EntityMetadata where
  columns : List ColumnMetadata := []
  discriminatorValue : Value := Value.undef
deriving DecidableEq, Repr

/-- `Driver.supportedUpsertType` (absent means upsert is unsupported). -/
inductive UpsertType where
  | onConflictDoUpdate : UpsertType
  | onDuplicateKeyUpdate : UpsertType
deriving DecidableEq, Repr

/-- Stands for the `instanceof` driver-class checks scattered through the
compiler (`MysqlDriver`, `AbstractSqliteDriver`, …). -/
inductive DriverKind where
  | mysql | auroraDataApi | postgres | cockroach | oracle | sqlite | sqlserver | sap | other
deriving DecidableEq, Repr

/-- The Dialect Capability Descriptor plus the driver-supplied functions the
compiler consults.  The driver classes live outside `src/`; each field mirrors
one observable the source reads (`supportedUpsertType`,
`isReturningSqlSupported()`, `isUUIDGenerationSupported()`, `spatialTypes`,
`options.legacySpatialSupport`, `escape`, `normalizeDefault`,
`preparePersistentValue`, `parametrizeValue`). -/
structure Driver where
  kind : DriverKind
  supportedUpsertType : Option UpsertType := none
  returningSqlSupported : Bool := false
  uuidGenerationSupported : Bool := false
  spatialTypes : List String := []
  legacySpatialSupport : Bool := false
  escape : String → String := id
  normalizeDefault : ColumnMetadata → String := fun _ => ""
  prepareValue : Value → ColumnMetadata → Value := fun v _ => v
  parametrizeValue : ColumnMetadata → Value → Value := fun _ v => v

/-- `expressionMap.returning`: either a raw returning SQL string or a list of
column property paths (`string | string[]`; the default is `""`). -/
inductive ReturningSpec where
  | raw : String → ReturningSpec
  | cols : List String → ReturningSpec
deriving DecidableEq, Repr

/-- A conflict target as accepted by `orUpdate` (`string | string[]`). -/
inductive ConflictTarget where
  | str : String → ConflictTarget
  | arr : List String → ConflictTarget
deriving DecidableEq, Repr

/-- `expressionMap.onUpdate` after `orUpdate` ran. -/
structure OnUpdateSpec where
  conflict : Option ConflictTarget := none
  columns : Option (List String) := none
  overwrite : Option (List String) := none
deriving DecidableEq, Repr

/-- `expressionMap.valuesSet`: unset, a single object, or an array. -/
inductive ValuesSetInput where
  | notSet : ValuesSetInput
  | single : ValueSet → ValuesSetInput
  | many : List ValueSet → ValuesSetInput
deriving DecidableEq, Repr

/-- The slice of `QueryExpressionMap` the insert builder reads and writes.
`metadata` models `mainAlias!.hasMetadata` / `mainAlias!.metadata`. -/
structure QueryExpressionMap where
  insertColumns : List String := []
  valuesSet : ValuesSetInput := ValuesSetInput.notSet
  returning : ReturningSpec := ReturningSpec.raw ""
  onIgnore : Bool := false
  onConflict : String := ""
  onUpdate : Option OnUpdateSpec := none
  updateEntity : Bool := true
  useTransaction : Bool := false
  callListeners : Bool := true
  metadata : Option EntityMetadata := none
  extraReturningColumns : List ColumnMetadata := []
  locallyGenerated : List (Nat × ValueSet) := []
deriving DecidableEq, Repr

/-- The insert query builder: its expression map, the connection's driver, the
escaped target table name (`this.getTableName(this.getMainTableName())`,
resolved by the base class), whether a caller-supplied query runner is set, and
the UUID source.

`uuidSource` is modelled from the spec: `RandomGenerator.uuid4` (outside
`src/`) yields a freshly generated UUID per call; calls are indexed by the
number of parameters bound so far, which increases at every generation. -/
structure InsertQueryBuilder where
  expressionMap : QueryExpressionMap := {}
  driver : Driver
  tableNameSql : String := ""
  hasOwnQueryRunner : Bool := false
  uuidSource : Nat → String := fun _ => ""

/-- The error taxonomy the embedded code can raise. -/
inductive TypeORMError where
  | insertValuesMissing : TypeORMError
  | returningStatementNotSupported : TypeORMError
  | typeormError : String → TypeORMError
  | external : Nat → TypeORMError
deriving DecidableEq, Repr

def exceptIsOk {ε α : Type} : Except ε α → Bool
  | .ok _ => true
  | .error _ => false

/-- One compiled SQL fragment: literal text or a positional parameter
placeholder (the `k`-th bound parameter). -/
inductive Frag where
  | text : String → Frag
  | param : Nat → Frag
deriving DecidableEq, Repr

/-- The literal SQL text of a fragment.  Placeholder text is the named
parameter the base class's `createParameter` generates. -/
def Frag.render : Frag → String
  | .text s => s
  | .param i => ":orm_param_" ++ toString i

/-- Concatenated SQL text of a fragment list. -/
def renderFrags : List Frag → String
  | [] => ""
  | f :: rest => f.render ++ renderFrags rest

/-- State threaded through compilation: the flat positional parameter array
and `expressionMap.locallyGenerated` (generated values cached by value-set
index). -/
structure CompileState where
  params : List Value := []
  locallyGenerated : List (Nat × ValueSet) := []
deriving DecidableEq, Repr

/-- Modelled from the spec: the base class's `createParameter` binds the value
as the next entry of the flat parameter array and returns its placeholder. -/
def createParameter (v : Value) (st : CompileState) : Frag × CompileState :=
  (Frag.param st.params.length, { st with params := st.params ++ [v] })

/-- `expressionMap.locallyGenerated[valueSetIndex]` read. -/
def lgLookup (lg : List (Nat × ValueSet)) (i : Nat) : Option ValueSet :=
  lg.lookup i

/-- `locallyGenerated[valueSetIndex] ||= {}; column.setEntityValue(...)`. -/
def lgSet (lg : List (Nat × ValueSet)) (i : Nat) (column : ColumnMetadata) (v : Value) :
    List (Nat × ValueSet) :=
  match lg.lookup i with
  | some vs => (i, setEntityValue column v vs) :: lg
  | none => (i, setEntityValue column v []) :: lg

/-! ## Public configuration methods -/

/-- `values(values)`: records the value set(s). -/
def values (b : InsertQueryBuilder) (vs : ValuesSetInput) : InsertQueryBuilder :=
  { b with expressionMap := { b.expressionMap with valuesSet := vs } }

/-- `returning(returning)`: a dialect without returning/output support raises
`ReturningStatementNotSupportedError` right away; otherwise the request is
recorded. -/
def returning (b : InsertQueryBuilder) (r : ReturningSpec) :
    Except TypeORMError InsertQueryBuilder :=
  if b.driver.returningSqlSupported = false then
    .error TypeORMError.returningStatementNotSupported
  else
    .ok { b with expressionMap := { b.expressionMap with returning := r } }

/-- `output(output)`: delegates to `returning`. -/
def output (b : InsertQueryBuilder) (r : ReturningSpec) :
    Except TypeORMError InsertQueryBuilder :=
  returning b r

/-- `updateEntity(enabled)`. -/
def updateEntity (b : InsertQueryBuilder) (enabled : Bool) : InsertQueryBuilder :=
  { b with expressionMap := { b.expressionMap with updateEntity := enabled } }

/-- `onConflict(statement)` (deprecated raw conflict clause). -/
def onConflict (b : InsertQueryBuilder) (statement : String) : InsertQueryBuilder :=
  { b with expressionMap := { b.expressionMap with onConflict := statement } }

/-- The `string | boolean` argument of `orIgnore`. -/
inductive StrOrBool where
  | str : String → StrOrBool
  | bool : Bool → StrOrBool
deriving DecidableEq, Repr

/-- JavaScript double-negation truthiness (`!!statement`): a string is truthy
iff it is nonempty. -/
def StrOrBool.truthy : StrOrBool → Bool
  | .str s => !(s == "")
  | .bool b => b

/-- `orIgnore(statement = true)`: coerces the argument to a boolean. -/
def orIgnore (b : InsertQueryBuilder) (statement : StrOrBool := StrOrBool.bool true) :
    InsertQueryBuilder :=
  { b with expressionMap := { b.expressionMap with onIgnore := statement.truthy } }

/-- The object-literal form accepted by `orUpdate`. -/
structure OrUpdateObj where
  columns : Option (List String) := none
  overwrite : Option (List String) := none
  conflict_target : Option ConflictTarget := none
deriving DecidableEq, Repr

/-- `orUpdate(statementOrOverwrite?, conflictTarget?)`: records the structured
update policy; an array argument is treated as the overwrite column list, any
other argument (object or `undefined`) is destructured.  It never inspects the
dialect. -/
def orUpdate (b : InsertQueryBuilder) (statementOrOverwrite : Option (OrUpdateObj ⊕ List String))
    (conflictTarget : Option ConflictTarget) : InsertQueryBuilder :=
  match statementOrOverwrite with
  | some (Sum.inr overwrite) =>
    { b with expressionMap := { b.expressionMap with
        onUpdate := some { overwrite := some overwrite, conflict := conflictTarget } } }
  | some (Sum.inl o) =>
    { b with expressionMap := { b.expressionMap with
        onUpdate := some { conflict := o.conflict_target, columns := o.columns,
                           overwrite := o.overwrite } } }
  | none =>
    { b with expressionMap := { b.expressionMap with
        onUpdate := some { conflict := none, columns := none, overwrite := none } } }

/-! ## Value-set resolution and column selection -/

/-- `getValueSets()`: an array is used as is, a single object is wrapped,
anything else raises `InsertValuesMissingError`. -/
def getValueSets (b : InsertQueryBuilder) : Except TypeORMError (List ValueSet) :=
  match b.expressionMap.valuesSet with
  | .many l => .ok l
  | .single vs => .ok [vs]
  | .notSet => .error TypeORMError.insertValuesMissing

/-- `isOverridingAutoIncrementBehavior(column)`: the column is an
auto-generated primary key and some value set supplies a non-`undefined`,
non-`null` value for it. -/
def isOverridingAutoIncrementBehavior (b : InsertQueryBuilder) (column : ColumnMetadata) :
    Except TypeORMError Bool :=
  match getValueSets b with
  | .error e => .error e
  | .ok vss =>
    .ok (column.isPrimary && column.isGenerated
      && decide (column.generationStrategy = some GenStrategy.increment)
      && vss.any (fun vs =>
           !(getEntityValue column vs == Value.undef)
           && !(getEntityValue column vs == Value.null)))

/-- The filter predicate of `getInsertedColumns`, including its short-circuit:
`isOverridingAutoIncrementBehavior` (which resolves the value sets) only runs
for an auto-increment generated column on SQL Server. -/
def insertedColumnKept (b : InsertQueryBuilder) (column : ColumnMetadata) :
    Except TypeORMError Bool :=
  if b.expressionMap.insertColumns.length ≠ 0 then
    pure (b.expressionMap.insertColumns.contains column.propertyPath)
  else if column.isInsert = false then
    pure false
  else if column.isGenerated = true ∧ column.generationStrategy = some GenStrategy.increment
      ∧ b.driver.kind ≠ DriverKind.oracle ∧ b.driver.kind ≠ DriverKind.sqlite
      ∧ b.driver.kind ≠ DriverKind.mysql ∧ b.driver.kind ≠ DriverKind.auroraDataApi then
    if b.driver.kind = DriverKind.sqlserver then
      isOverridingAutoIncrementBehavior b column
    else
      pure false
  else
    pure true

/-- Helper: effectful filter over the metadata columns. -/
def keptColumns (b : InsertQueryBuilder) : List ColumnMetadata →
    Except TypeORMError (List ColumnMetadata)
  | [] => .ok []
  | c :: rest =>
    match insertedColumnKept b c with
    | .error e => .error e
    | .ok keep =>
      match keptColumns b rest with
      | .error e => .error e
      | .ok tail => .ok (if keep then c :: tail else tail)

/-- `getInsertedColumns()`: no metadata means no resolved columns; otherwise
the metadata columns are filtered by the explicit allow-list or by the
implicit insertable/non-auto-increment rule with its dialect exceptions. -/
def getInsertedColumns (b : InsertQueryBuilder) : Except TypeORMError (List ColumnMetadata) :=
  match b.expressionMap.metadata with
  | none => .ok []
  | some md => keptColumns b md.columns

/-- `createColumnNamesExpression()`. -/
def createColumnNamesExpression (b : InsertQueryBuilder) : Except TypeORMError String :=
  match getInsertedColumns b with
  | .error e => .error e
  | .ok columns =>
    if columns.length > 0 then
      .ok (String.intercalate ", " (columns.map (fun c => b.driver.escape c.databaseName)))
    else if b.expressionMap.metadata.isNone = true
        ∧ b.expressionMap.insertColumns.length = 0 then
      match getValueSets b with
      | .error e => .error e
      | .ok valueSets =>
        if valueSets.length = 1 then
          .ok (String.intercalate ", "
            ((valueSets.headD []).map (fun p => b.driver.escape p.1)))
        else
          .ok (String.intercalate ", " (b.expressionMap.insertColumns.map b.driver.escape))
    else
      .ok (String.intercalate ", " (b.expressionMap.insertColumns.map b.driver.escape))

/-! ## VALUES body construction (`createValuesExpression`) -/

/-- The first two statements of the metadata-path cell: extract the value from
the entity and, unless it is a raw-expression callable, normalise it through
the driver (`preparePersistentValue`). -/
def resolvedValue (b : InsertQueryBuilder) (column : ColumnMetadata) (vs : ValueSet) : Value :=
  let value0 := getEntityValue column vs
  if value0.isFunc then value0 else b.driver.prepareValue value0 column

/-- The value-emission core of one cell of the VALUES body (the branch cascade
in the middle of the nested `forEach` of `createValuesExpression`), for the
schema-metadata path.  Returns the emitted fragments and the updated compile
state. -/
def emitValue (b : InsertQueryBuilder) (md : EntityMetadata) (valueSetsLen : Nat)
    (valueSetIndex : Nat) (valueSet : ValueSet) (column : ColumnMetadata)
    (st : CompileState) : List Frag × CompileState :=
  let value := resolvedValue b column valueSet
  if column.isVersion = true ∧ value = Value.undef then
    ([Frag.text "1"], st)
  else if column.isDiscriminator = true then
    let r := createParameter md.discriminatorValue st
    ([r.1], r.2)
  else if column.isGenerated = true ∧ column.generationStrategy = some GenStrategy.uuid
      ∧ b.driver.uuidGenerationSupported = false ∧ value = Value.undef then
    let u := b.uuidSource st.params.length
    let r := createParameter (Value.str u) st
    ([r.1], { r.2 with
      locallyGenerated := lgSet r.2.locallyGenerated valueSetIndex column (Value.str u) })
  else if value = Value.undef then
    if (b.driver.kind = DriverKind.oracle ∧ valueSetsLen > 1)
        ∨ b.driver.kind = DriverKind.sqlite ∨ b.driver.kind = DriverKind.sap then
      if column.defaultValue ≠ Value.undef ∧ column.defaultValue ≠ Value.null then
        ([Frag.text (b.driver.normalizeDefault column)], st)
      else
        ([Frag.text "NULL"], st)
    else
      ([Frag.text "DEFAULT"], st)
  else if value.isFunc = true then
    ([Frag.text value.funcSql], st)
  else
    let value2 := if b.driver.kind = DriverKind.sqlserver
      then b.driver.parametrizeValue column value else value
    let r := createParameter value2 st
    if (b.driver.kind = DriverKind.mysql ∨ b.driver.kind = DriverKind.auroraDataApi)
        ∧ b.driver.spatialTypes.contains column.columnType then
      let geomFromText := if b.driver.legacySpatialSupport then "GeomFromText"
        else "ST_GeomFromText"
      match column.srid with
      | some srid =>
        ([Frag.text (geomFromText ++ "("), r.1, Frag.text (", " ++ toString srid ++ ")")], r.2)
      | none =>
        ([Frag.text (geomFromText ++ "("), r.1, Frag.text ")"], r.2)
    else if b.driver.kind = DriverKind.postgres
        ∧ b.driver.spatialTypes.contains column.columnType then
      match column.srid with
      | some srid =>
        ([Frag.text "ST_SetSRID(ST_GeomFromGeoJSON(", r.1,
          Frag.text ("), " ++ toString srid ++ ")::" ++ column.columnType)], r.2)
      | none =>
        ([Frag.text "ST_GeomFromGeoJSON(", r.1, Frag.text (")::" ++ column.columnType)], r.2)
    else if b.driver.kind = DriverKind.sqlserver
        ∧ b.driver.spatialTypes.contains column.columnType then
      ([Frag.text (column.columnType ++ "::STGeomFromText("), r.1,
        Frag.text (", " ++ (match column.srid with
          | some srid => toString srid
          | none => "0") ++ ")")], r.2)
    else
      ([r.1], r.2)

/-- `columnIndex === 0` opener of a tuple (`(`, or ` SELECT ` for Oracle
multi-row inserts). -/
def cellOpen (b : InsertQueryBuilder) (valueSetsLen columnIndex : Nat) : List Frag :=
  if columnIndex = 0 then
    if b.driver.kind = DriverKind.oracle ∧ valueSetsLen > 1 then
      [Frag.text " SELECT "]
    else
      [Frag.text "("]
  else
    []

/-- Tuple/row closers and separators of the metadata path. -/
def cellClose (b : InsertQueryBuilder) (valueSetsLen columnsLen valueSetIndex columnIndex : Nat) :
    List Frag :=
  if columnIndex = columnsLen - 1 then
    if valueSetIndex = valueSetsLen - 1 then
      if b.driver.kind = DriverKind.oracle ∧ valueSetsLen > 1 then
        [Frag.text " FROM DUAL "]
      else
        [Frag.text ")"]
    else
      if b.driver.kind = DriverKind.oracle ∧ valueSetsLen > 1 then
        [Frag.text " FROM DUAL UNION ALL "]
      else
        [Frag.text "), "]
  else
    [Frag.text ", "]

/-- One cell (opener + value + closer) of the metadata path. -/
def emitCell (b : InsertQueryBuilder) (md : EntityMetadata) (valueSetsLen columnsLen : Nat)
    (valueSetIndex : Nat) (valueSet : ValueSet) (column : ColumnMetadata) (columnIndex : Nat)
    (st : CompileState) : List Frag × CompileState :=
  let r := emitValue b md valueSetsLen valueSetIndex valueSet column st
  (cellOpen b valueSetsLen columnIndex ++ r.1
    ++ cellClose b valueSetsLen columnsLen valueSetIndex columnIndex, r.2)

/-- The inner `columns.forEach` of the metadata path, starting at column index
`columnIndex`. -/
def emitRowCells (b : InsertQueryBuilder) (md : EntityMetadata) (valueSetsLen columnsLen : Nat)
    (valueSetIndex : Nat) (valueSet : ValueSet) :
    List ColumnMetadata → Nat → CompileState → List Frag × CompileState
  | [], _, st => ([], st)
  | column :: rest, columnIndex, st =>
    let r1 := emitCell b md valueSetsLen columnsLen valueSetIndex valueSet column
      columnIndex st
    let r2 := emitRowCells b md valueSetsLen columnsLen valueSetIndex valueSet rest
      (columnIndex + 1) r1.2
    (r1.1 ++ r2.1, r2.2)

/-- The outer `valueSets.forEach` of the metadata path, starting at value-set
index `valueSetIndex`. -/
def emitRows (b : InsertQueryBuilder) (md : EntityMetadata) (valueSetsLen : Nat)
    (columns : List ColumnMetadata) :
    List ValueSet → Nat → CompileState → List Frag × CompileState
  | [], _, st => ([], st)
  | valueSet :: rest, valueSetIndex, st =>
    let r1 := emitRowCells b md valueSetsLen columns.length valueSetIndex valueSet
      columns 0 st
    let r2 := emitRows b md valueSetsLen columns rest (valueSetIndex + 1) r1.2
    (r1.1 ++ r2.1, r2.2)

/-- The value emission of the no-metadata (raw table) path. -/
def emitRawValue (b : InsertQueryBuilder) (value : Value) (st : CompileState) :
    List Frag × CompileState :=
  if value.isFunc = true then
    ([Frag.text value.funcSql], st)
  else if value = Value.undef then
    if b.driver.kind = DriverKind.sqlite ∨ b.driver.kind = DriverKind.sap then
      ([Frag.text "NULL"], st)
    else
      ([Frag.text "DEFAULT"], st)
  else
    let r := createParameter value st
    ([r.1], r.2)

/-- The inner `columns.forEach` of the raw path (columns come from the
record's own key set). -/
def emitRawCells (b : InsertQueryBuilder) (valueSetsLen columnsLen insertionIndex : Nat) :
    List (String × Value) → Nat → CompileState → List Frag × CompileState
  | [], _, st => ([], st)
  | (_, value) :: rest, columnIndex, st =>
    let opener : List Frag := if columnIndex = 0 then [Frag.text "("] else []
    let r1 := emitRawValue b value st
    let closer : List Frag :=
      if columnIndex = columnsLen - 1 then
        if insertionIndex = valueSetsLen - 1 then [Frag.text ")"] else [Frag.text "), "]
      else
        [Frag.text ", "]
    let r2 := emitRawCells b valueSetsLen columnsLen insertionIndex rest
      (columnIndex + 1) r1.2
    (opener ++ r1.1 ++ closer ++ r2.1, r2.2)

/-- The outer `valueSets.forEach` of the raw path. -/
def emitRawRows (b : InsertQueryBuilder) (valueSetsLen : Nat) :
    List ValueSet → Nat → CompileState → List Frag × CompileState
  | [], _, st => ([], st)
  | valueSet :: rest, insertionIndex, st =>
    let r1 := emitRawCells b valueSetsLen valueSet.length insertionIndex valueSet 0 st
    let r2 := emitRawRows b valueSetsLen rest (insertionIndex + 1) r1.2
    (r1.1 ++ r2.1, r2.2)

/-- `createValuesExpression()`: metadata path when resolved columns exist,
raw-record path otherwise; an expression that collapsed to `"()"` (a single
all-default record) is replaced by the empty expression so the caller can
substitute the dialect's all-default idiom. -/
def createValuesExpression (b : InsertQueryBuilder) (st : CompileState) :
    Except TypeORMError (List Frag × CompileState) :=
  match getValueSets b with
  | .error e => .error e
  | .ok valueSets =>
    match getInsertedColumns b with
    | .error e => .error e
    | .ok columns =>
      if columns.length > 0 then
        let md := b.expressionMap.metadata.getD {}
        let r := emitRows b md valueSets.length columns valueSets 0 st
        if renderFrags r.1 = "()" then
          .ok ([], r.2)
        else
          .ok (r.1, r.2)
      else
        let r := emitRawRows b valueSets.length valueSets 0 st
        if renderFrags r.1 = "()" then
          .ok ([], r.2)
        else
          .ok (r.1, r.2)

/-! ## INSERT expression assembly (`createInsertExpression`) -/

/-- Modelled from the spec: the base class's `createReturningExpression` builds
the RETURNING/OUTPUT column list from the union of the explicitly requested
returning columns and the extra columns recorded for the update-entity
feature, deduplicated; a raw returning string is used verbatim. -/
def createReturningExpression (b : InsertQueryBuilder) : String :=
  match b.expressionMap.returning with
  | .raw s => s
  | .cols paths =>
    let extra := (b.expressionMap.extraReturningColumns.map (fun c => c.propertyPath)).filter
      (fun p => !(paths.contains p))
    String.intercalate ", " ((paths ++ extra).map b.driver.escape)

/-- The three-way upsert clause dispatch on `driver.supportedUpsertType`
(the block between the VALUES body and the RETURNING clause). -/
def upsertClause (b : InsertQueryBuilder) : Except TypeORMError (List Frag) :=
  match b.driver.supportedUpsertType with
  | some UpsertType.onConflictDoUpdate =>
    if b.expressionMap.onIgnore = true then
      .ok [Frag.text " ON CONFLICT DO NOTHING "]
    else if b.expressionMap.onConflict ≠ "" then
      .ok [Frag.text (" ON CONFLICT " ++ b.expressionMap.onConflict ++ " ")]
    else
      match b.expressionMap.onUpdate with
      | some ou =>
        let conflictTarget := "ON CONFLICT" ++
          (match ou.conflict with
           | some (ConflictTarget.arr l) =>
             " ( " ++ String.intercalate ", " (l.map b.driver.escape) ++ " )"
           | some (ConflictTarget.str s) =>
             if s ≠ "" then " ON CONSTRAINT " ++ b.driver.escape s else ""
           | none => "")
        match ou.overwrite with
        | some overwrite =>
          .ok [Frag.text (" " ++ conflictTarget ++ " DO UPDATE SET "
            ++ String.intercalate ", " (overwrite.map (fun c =>
                 b.driver.escape c ++ " = EXCLUDED." ++ b.driver.escape c))
            ++ " ")]
        | none =>
          match ou.columns with
          | some columns =>
            .ok [Frag.text (" " ++ conflictTarget ++ " DO UPDATE SET "
              ++ String.intercalate ", " (columns.map (fun c =>
                   b.driver.escape c ++ " = :" ++ c))
              ++ " ")]
          | none => .ok []
      | none => .ok []
  | some UpsertType.onDuplicateKeyUpdate =>
    match b.expressionMap.onUpdate with
    | some ou =>
      match ou.overwrite with
      | some overwrite =>
        .ok [Frag.text (" ON DUPLICATE KEY UPDATE "
          ++ String.intercalate ", " (overwrite.map (fun c =>
               b.driver.escape c ++ " = VALUES(" ++ b.driver.escape c ++ ")"))
          ++ " ")]
      | none =>
        match ou.columns with
        | some columns =>
          .ok [Frag.text (" ON DUPLICATE KEY UPDATE "
            ++ String.intercalate ", " (columns.map (fun c =>
                 b.driver.escape c ++ " = :" ++ c))
            ++ " ")]
        | none => .ok []
    | none => .ok []
  | none =>
    match b.expressionMap.onUpdate with
    | some _ => .error (TypeORMError.typeormError
        "onUpdate is not supported by the current database driver")
    | none => .ok []

/-- JavaScript truthiness of the (possibly absent) returning expression. -/
def truthyOptStr : Option String → Bool
  | some s => !(s == "")
  | none => false

/-- The pure string assembly of `createInsertExpression` (everything except
the identity-insert wrapper), given the already-computed ingredients. -/
def assembleInsert (b : InsertQueryBuilder) (valueSetsLen : Nat) (valuesFrags : List Frag)
    (columnsExpression : String) (upsertFrags : List Frag) : List Frag :=
  let returningExpression : Option String :=
    if b.driver.kind = DriverKind.oracle ∧ valueSetsLen > 1 then none
    else some (createReturningExpression b)
  let q1 : List Frag :=
    [Frag.text "INSERT "]
    ++ (if b.driver.kind = DriverKind.mysql ∨ b.driver.kind = DriverKind.auroraDataApi then
          [Frag.text (if b.expressionMap.onIgnore then " IGNORE " else "")]
        else [])
    ++ [Frag.text ("INTO " ++ b.tableNameSql)]
  let q2 := q1 ++
    (if columnsExpression ≠ "" then
       [Frag.text ("(" ++ columnsExpression ++ ")")]
     else if renderFrags valuesFrags = ""
         ∧ (b.driver.kind = DriverKind.mysql ∨ b.driver.kind = DriverKind.auroraDataApi) then
       [Frag.text "()"]
     else [])
  let q3 := q2 ++
    (if truthyOptStr returningExpression = true ∧ b.driver.kind = DriverKind.sqlserver then
       [Frag.text (" OUTPUT " ++ returningExpression.getD "")]
     else [])
  let q4 := q3 ++
    (if renderFrags valuesFrags ≠ "" then
       (if b.driver.kind = DriverKind.oracle ∧ valueSetsLen > 1 then
          [Frag.text " "] ++ valuesFrags
        else
          [Frag.text " VALUES "] ++ valuesFrags)
     else if b.driver.kind = DriverKind.mysql ∨ b.driver.kind = DriverKind.auroraDataApi then
       [Frag.text " VALUES ()"]
     else
       [Frag.text " DEFAULT VALUES"])
  let q5 := q4 ++ upsertFrags
  q5 ++
    (if truthyOptStr returningExpression = true
        ∧ (b.driver.kind = DriverKind.postgres ∨ b.driver.kind = DriverKind.oracle
           ∨ b.driver.kind = DriverKind.cockroach) then
       [Frag.text (" RETURNING " ++ returningExpression.getD "")]
     else [])

/-- `createInsertExpression` without the identity-insert wrapper: resolves the
VALUES body first (Oracle relies on native parameter ordering), then the
returning, column-list and upsert pieces, and concatenates them. -/
def createInsertExpressionCore (b : InsertQueryBuilder) (st : CompileState) :
    Except TypeORMError (List Frag × CompileState) :=
  match createValuesExpression b st with
  | .error e => .error e
  | .ok (valuesFrags, st1) =>
    match getValueSets b with
    | .error e => .error e
    | .ok valueSets =>
      match createColumnNamesExpression b with
      | .error e => .error e
      | .ok columnsExpression =>
        match upsertClause b with
        | .error e => .error e
        | .ok upsertFrags =>
          .ok (assembleInsert b valueSets.length valuesFrags columnsExpression upsertFrags, st1)

/-- `.some(...)` over an effectful predicate, with the source's left-to-right
short-circuit order. -/
def anyOverrides (b : InsertQueryBuilder) : List ColumnMetadata → Except TypeORMError Bool
  | [] => .ok false
  | c :: rest =>
    match isOverridingAutoIncrementBehavior b c with
    | .error e => .error e
    | .ok o => if o then .ok true else anyOverrides b rest

/-- The selection filter of the identity-insert guard (explicit allow-list, or
the `isInsert` flag). -/
def identityCheckSelected (b : InsertQueryBuilder) (column : ColumnMetadata) : Bool :=
  if b.expressionMap.insertColumns.length > 0 then
    b.expressionMap.insertColumns.contains column.propertyPath
  else
    column.isInsert

/-- The guard of the SQL Server identity-insert wrapper: some column kept by
the allow-list (or flagged insertable) overrides auto-increment behaviour. -/
def identityInsertCondition (b : InsertQueryBuilder) : Except TypeORMError Bool :=
  match b.expressionMap.metadata with
  | some md =>
    if b.driver.kind = DriverKind.sqlserver then
      anyOverrides b (md.columns.filter (identityCheckSelected b))
    else
      .ok false
  | none => .ok false

/-- The enable/disable toggles wrapped around the INSERT on SQL Server. -/
def identityWrap (tableName : String) (q : List Frag) : List Frag :=
  [Frag.text ("SET IDENTITY_INSERT " ++ tableName ++ " ON; ")] ++ q
    ++ [Frag.text ("; SET IDENTITY_INSERT " ++ tableName ++ " OFF")]

/-- `createInsertExpression()`: the full compiled INSERT statement (fragments
plus final compile state). -/
def createInsertExpression (b : InsertQueryBuilder) (st : CompileState) :
    Except TypeORMError (List Frag × CompileState) :=
  match createInsertExpressionCore b st with
  | .error e => .error e
  | .ok (q, st1) =>
    match identityInsertCondition b with
    | .error e => .error e
    | .ok wrap => .ok ((if wrap then identityWrap b.tableNameSql q else q), st1)

/-! ## Execution orchestrator (`execute`) -/

/-- The raw engine result of a dispatched statement (opaque to the compiler). -/
structure RawQueryResult where
  tag : Nat := 0
deriving DecidableEq, Repr

/-- `InsertResult`: plain `new InsertResult()` has empty identifiers, empty
generated maps and no raw engine result. -/
structure InsertResult where
  identifiers : List ValueSet := []
  generatedMaps : List ValueSet := []
  raw : Option RawQueryResult := none
deriving DecidableEq, Repr

/-- `InsertResult.from(queryResult)`. -/
def InsertResult.ofRaw (qr : RawQueryResult) : InsertResult :=
  { raw := some qr }

/-- Modelled from the spec: `SqlServerDriver.buildTableVariableDeclaration`
(outside `src/`) declares a table variable listing the returning columns; it
is plain SQL text and binds no parameters. -/
def buildTableVariableDeclaration (name : String) (columns : List ColumnMetadata) : String :=
  "DECLARE " ++ name ++ " TABLE ("
    ++ String.intercalate ", " (columns.map (fun c => c.databaseName)) ++ ")"

/-- Modelled from the spec:
`ReturningResultsEntityUpdator.getInsertionReturningColumns` (outside `src/`)
collects the extra columns the update-entity feature needs to populate
generated values back onto the records. -/
def getInsertionReturningColumns (md : EntityMetadata) : List ColumnMetadata :=
  md.columns.filter (fun c => c.isGenerated || !(c.defaultValue == Value.undef))

/-- The behaviour of the external query runner, broadcaster, entity updator
and transaction layer for one `execute()` call: whether a transaction is
already active, and the outcome of each awaited external operation. -/
structure QueryRunnerEnv where
  isTransactionActive : Bool := false
  startTransactionResult : Except TypeORMError Unit := Except.ok ()
  beforeBroadcastResult : Except TypeORMError Unit := Except.ok ()
  queryResult : Except TypeORMError RawQueryResult := Except.ok {}
  entityUpdaterResult : Except TypeORMError Unit := Except.ok ()
  afterBroadcastResult : Except TypeORMError Unit := Except.ok ()
  commitResult : Except TypeORMError Unit := Except.ok ()
  rollbackResult : Except TypeORMError Unit := Except.ok ()
  releaseResult : Except TypeORMError Unit := Except.ok ()

/-- The observable actions `execute()` performs against its collaborators, in
order. -/
inductive ExecEvent where
  | obtainRunner : ExecEvent
  | startTransaction : ExecEvent
  | broadcastBefore : ValueSet → ExecEvent
  | query : String → List Value → ExecEvent
  | broadcastAfter : ValueSet → ExecEvent
  | commit : ExecEvent
  | rollback : ExecEvent
  | release : ExecEvent
deriving DecidableEq, Repr

/-- The part of the `try` block after the transaction step: before-hooks,
returning-columns preparation (including the `extraReturningColumns`
mutation), compilation, dispatch of the joined declare/insert/select-output
statements, entity updating, after-hooks, and the commit of a self-started
transaction. -/
def tryBodyAfterTxn (b : InsertQueryBuilder) (env : QueryRunnerEnv)
    (valueSets : List ValueSet) (startedByUs : Bool) :
    List ExecEvent × Except TypeORMError InsertResult :=
  let hasMeta := b.expressionMap.metadata.isSome
  let listen := b.expressionMap.callListeners = true ∧ hasMeta = true
  let beforeEvs := if listen then valueSets.map ExecEvent.broadcastBefore else []
  match (if listen then env.beforeBroadcastResult else Except.ok ()) with
  | .error e => (beforeEvs, .error e)
  | .ok () =>
    let md := b.expressionMap.metadata.getD {}
    let returningCols0 : List ColumnMetadata :=
      match b.expressionMap.returning with
      | .cols paths =>
        if hasMeta then
          paths.flatMap (fun p => md.columns.filter (fun c => c.propertyPath == p))
        else []
      | .raw _ => []
    let doUpdateEntity := b.expressionMap.updateEntity = true ∧ hasMeta = true
    let extra :=
      if doUpdateEntity ∧ ¬(valueSets.length > 1 ∧ b.driver.kind = DriverKind.oracle) then
        getInsertionReturningColumns md
      else b.expressionMap.extraReturningColumns
    let returningCols :=
      if doUpdateEntity then
        returningCols0 ++ extra.filter (fun c => decide (¬ c ∈ returningCols0))
      else returningCols0
    let b' := { b with expressionMap :=
      { b.expressionMap with extraReturningColumns := extra } }
    let declareSql : Option String :=
      if returningCols.length > 0 ∧ b.driver.kind = DriverKind.sqlserver then
        some (buildTableVariableDeclaration "@OutputTable" returningCols)
      else none
    let selectOutputSql : Option String :=
      if returningCols.length > 0 ∧ b.driver.kind = DriverKind.sqlserver then
        some "SELECT * FROM @OutputTable"
      else none
    match createInsertExpression b'
        { locallyGenerated := b.expressionMap.locallyGenerated } with
    | .error e => (beforeEvs, .error e)
    | .ok (frags, cst) =>
      let sql := String.intercalate ";\n\n"
        ([declareSql, some (renderFrags frags), selectOutputSql].filterMap id)
      let qEv := ExecEvent.query sql cst.params
      match env.queryResult with
      | .error e => (beforeEvs ++ [qEv], .error e)
      | .ok qr =>
        match (if doUpdateEntity then env.entityUpdaterResult else Except.ok ()) with
        | .error e => (beforeEvs ++ [qEv], .error e)
        | .ok () =>
          let afterEvs := if listen then valueSets.map ExecEvent.broadcastAfter else []
          match (if listen then env.afterBroadcastResult else Except.ok ()) with
          | .error e => (beforeEvs ++ [qEv] ++ afterEvs, .error e)
          | .ok () =>
            if startedByUs then
              match env.commitResult with
              | .error e =>
                (beforeEvs ++ [qEv] ++ afterEvs ++ [ExecEvent.commit], .error e)
              | .ok () =>
                (beforeEvs ++ [qEv] ++ afterEvs ++ [ExecEvent.commit],
                 .ok (InsertResult.ofRaw qr))
            else
              (beforeEvs ++ [qEv] ++ afterEvs, .ok (InsertResult.ofRaw qr))

/-- The whole `try` block: starts a transaction when transactions are enabled
and none is active, and remembers whether it started one
(`transactionStartedByUs` stays `false` when `startTransaction` itself
throws). -/
def tryBody (b : InsertQueryBuilder) (env : QueryRunnerEnv) (valueSets : List ValueSet) :
    List ExecEvent × Except TypeORMError InsertResult × Bool :=
  if b.expressionMap.useTransaction = true ∧ env.isTransactionActive = false then
    match env.startTransactionResult with
    | .error e => ([ExecEvent.startTransaction], .error e, false)
    | .ok () =>
      let r := tryBodyAfterTxn b env valueSets true
      (ExecEvent.startTransaction :: r.1, r.2, true)
  else
    let r := tryBodyAfterTxn b env valueSets false
    (r.1, r.2, false)

/-- `execute()`: resolves the value sets (raising `InsertValuesMissingError`
when none were given), short-circuits an empty sequence to a fresh empty
`InsertResult`, otherwise obtains a query runner and runs the `try` body; on
failure a self-started transaction is rolled back (a rollback error is
swallowed) and the original error is re-thrown; a self-created runner is
always released in the final step (a release error replaces the outcome, as
for a JavaScript `finally`). -/
def execute (b : InsertQueryBuilder) (env : QueryRunnerEnv) :
    List ExecEvent × Except TypeORMError InsertResult :=
  match getValueSets b with
  | .error e => ([], .error e)
  | .ok valueSets =>
    if valueSets.length = 0 then
      ([], .ok {})
    else
      let obtainEvs : List ExecEvent :=
        if b.hasOwnQueryRunner then [] else [ExecEvent.obtainRunner]
      let (evs, res, startedByUs) := tryBody b env valueSets
      let (evs2, res2) :=
        match res with
        | .ok r => (evs, Except.ok r)
        | .error e =>
          if startedByUs then (evs ++ [ExecEvent.rollback], Except.error e)
          else (evs, Except.error e)
      let (evs3, res3) :=
        if b.hasOwnQueryRunner then (evs2, res2)
        else
          match env.releaseResult with
          | .ok () => (evs2 ++ [ExecEvent.release], res2)
          | .error re => (evs2 ++ [ExecEvent.release], Except.error re)
      (obtainEvs ++ evs3, res3)

/-! ## Observation functions used by the verification -/

/-- The parameter index of a placeholder fragment. -/
def paramIdx : Frag → Option Nat
  | .param i => some i
  | .text _ => none

/-- The parameter indices of the placeholders of a fragment list, in
occurrence order. -/
def paramIndices (l : List Frag) : List Nat :=
  l.filterMap paramIdx

/-- Relation between compile states across one emission step: the parameter
array is extended by `new` entries, and the emitted placeholders reference
exactly those entries, in order. -/
def ParamShape (st st' : CompileState) (frags : List Frag) : Prop :=
  ∃ new, st'.params = st.params ++ new
    ∧ paramIndices frags = List.range' st.params.length new.length

/-- The cached locally-generated value for value-set index `i` and column
property path `p`. -/
def lgBinding (lg : List (Nat × ValueSet)) (i : Nat) (p : String) : Option Value :=
  match lgLookup lg i with
  | some vs => vs.lookup p
  | none => none

/-- Number of occurrences of the (nonempty) pattern `pat` inside `s`, counted
at every start position. -/
def countOcc (pat : List Char) : List Char → Nat
  | [] => 0
  | c :: rest => (if pat <+: (c :: rest) then 1 else 0) + countOcc pat rest

/-- A string is clean for `pat` when `pat` does not occur in it and no proper
nonempty prefix of `pat` is a suffix of it (so appending anything after it
cannot complete an occurrence spanning the boundary). -/
def CleanFor (pat s : List Char) : Prop :=
  countOcc pat s = 0 ∧ ∀ k, 0 < k → k < pat.length → ¬ (pat.take k <:+ s)

/-- Executable version of the suffix half of `CleanFor`. -/
def suffixCleanB (pat s : List Char) : Bool :=
  (List.range pat.length).all (fun k => (k == 0) || !((pat.take k).isSuffixOf s))

/-- Executable version of `CleanFor`. -/
def cleanForB (pat s : List Char) : Bool :=
  (countOcc pat s == 0) && suffixCleanB pat s

/-- The `ON CONFLICT DO NOTHING` clause text, as characters. -/
def patConflictNothing : List Char := "ON CONFLICT DO NOTHING".data

/-- The `ON DUPLICATE KEY UPDATE` clause text, as characters. -/
def patDupKey : List Char := "ON DUPLICATE KEY UPDATE".data

/-- A string is upsert-clean when it is clean for both upsert clause texts. -/
def UpsertClean (s : List Char) : Prop :=
  CleanFor patConflictNothing s ∧ CleanFor patDupKey s

/-- Executable version of `UpsertClean`. -/
def upsertCleanB (s : List Char) : Bool :=
  cleanForB patConflictNothing s && cleanForB patDupKey s

/-- The SQL text of a successful compilation (empty on failure). -/
def sqlOfCompiled : Except TypeORMError (List Frag × CompileState) → String
  | .ok (frags, _) => renderFrags frags
  | .error _ => ""

/-- The parameter array of a successful compilation (empty on failure). -/
def paramsOfCompiled : Except TypeORMError (List Frag × CompileState) → List Value
  | .ok (_, st) => st.params
  | .error _ => []

/-! ## Concrete fixtures used by witnesses and counterexamples -/

/-- A driver with `on-conflict-do-update` upsert support and returning
support (the PostgreSQL capability profile). -/
def pgDriver : Driver :=
  { kind := DriverKind.postgres,
    supportedUpsertType := some UpsertType.onConflictDoUpdate,
    returningSqlSupported := true,
    uuidGenerationSupported := true }

/-- A driver without upsert support and without returning support. -/
def plainDriver : Driver :=
  { kind := DriverKind.other }

/-- The SQL Server capability profile slice used here. -/
def mssqlDriver : Driver :=
  { kind := DriverKind.sqlserver, returningSqlSupported := true }

/-- A sqlite-like driver (no native UUID generation, no returning). -/
def liteDriver : Driver :=
  { kind := DriverKind.sqlite }

/-- An auto-increment primary key column. -/
def colId : ColumnMetadata :=
  { propertyPath := "id", databaseName := "id", isPrimary := true, isGenerated := true,
    generationStrategy := some GenStrategy.increment }

/-- A plain insertable column. -/
def colName : ColumnMetadata :=
  { propertyPath := "name", databaseName := "name" }

/-- A generated-uuid primary column. -/
def colUid : ColumnMetadata :=
  { propertyPath := "uid", databaseName := "uid", isPrimary := true, isGenerated := true,
    generationStrategy := some GenStrategy.uuid }

/-- Table metadata with an auto-increment id and a name column. -/
def mdIdName : EntityMetadata :=
  { columns := [colId, colName] }

/-- Table metadata with a generated-uuid id and a name column. -/
def mdUidName : EntityMetadata :=
  { columns := [colUid, colName] }

/-- A postgres-dialect builder inserting two records. -/
def bPg : InsertQueryBuilder :=
  { driver := pgDriver,
    tableNameSql := "tbl",
    expressionMap := {
      metadata := some mdIdName,
      valuesSet := ValuesSetInput.many
        [[("name", Value.str "a")], [("name", Value.str "b")]] } }

/-- A builder on a dialect without upsert support, with the ignore policy
set. -/
def bNoUpsertIgnore : InsertQueryBuilder :=
  { driver := plainDriver,
    tableNameSql := "tbl",
    expressionMap := {
      metadata := some mdIdName,
      onIgnore := true,
      valuesSet := ValuesSetInput.single [("name", Value.str "a")] } }

/-- A builder on a dialect without upsert support, with a raw conflict
clause set. -/
def bNoUpsertConflict : InsertQueryBuilder :=
  { driver := plainDriver,
    tableNameSql := "tbl",
    expressionMap := {
      metadata := some mdIdName,
      onConflict := "(\"id\") DO NOTHING",
      valuesSet := ValuesSetInput.single [("name", Value.str "a")] } }

/-- A SQL Server builder that supplies an explicit value for the
auto-increment primary key. -/
def bMssqlIdentity : InsertQueryBuilder :=
  { driver := mssqlDriver,
    tableNameSql := "tbl",
    expressionMap := {
      metadata := some mdIdName,
      valuesSet := ValuesSetInput.many [[("id", Value.int 5), ("name", Value.str "a")]] } }

/-- A sqlite-dialect builder relying on local UUID generation. -/
def bLiteUuid : InsertQueryBuilder :=
  { driver := liteDriver,
    tableNameSql := "tbl",
    uuidSource := fun n => "uuid-" ++ toString n,
    expressionMap := {
      metadata := some mdUidName,
      valuesSet := ValuesSetInput.many
        [[("name", Value.str "a")], [("uid", Value.str "u-set"), ("name", Value.str "b")]] } }

/-- A postgres-dialect builder with the ignore policy set together with both a
raw conflict clause and a structured update policy (the ignore policy must win). -/
def bPgIgnoreAll : InsertQueryBuilder :=
  { driver := pgDriver,
    tableNameSql := "tbl",
    expressionMap := {
      metadata := some mdIdName,
      onIgnore := true,
      onConflict := "(id) do update set id = excluded.id",
      onUpdate := some { overwrite := some ["name"] },
      valuesSet := ValuesSetInput.many
        [[("name", Value.str "a")], [("name", Value.str "b")]] } }

/-- Decidable check used by witnesses: a compiled VALUES body renders to a
nonempty, upsert-clean string. -/
def valuesCleanCheck (r : Except TypeORMError (List Frag × CompileState)) : Bool :=
  match r with
  | .ok (vf, _) => upsertCleanB (renderFrags vf).data && !((renderFrags vf) == "")
  | .error _ => false

/-- Decidable check used by witnesses: a compiled column-list expression is a
nonempty, upsert-clean string. -/
def columnsCleanCheck (r : Except TypeORMError String) : Bool :=
  match r with
  | .ok ce => upsertCleanB ce.data && !(ce == "")
  | .error _ => false

/-! ## Helper lemmas -/

theorem insertedColumnKept_ok (b : InsertQueryBuilder) (vss : List ValueSet)
    (hvs : getValueSets b = .ok vss) (c : ColumnMetadata) :
    ∃ k, insertedColumnKept b c = .ok k := by
  unfold insertedColumnKept isOverridingAutoIncrementBehavior
  split
  · exact ⟨_, rfl⟩
  · split
    · exact ⟨_, rfl⟩
    · split
      · split
        · rw [hvs]; exact ⟨_, rfl⟩
        · exact ⟨_, rfl⟩
      · exact ⟨_, rfl⟩

theorem keptColumns_ok (b : InsertQueryBuilder) (vss : List ValueSet)
    (hvs : getValueSets b = .ok vss) (l : List ColumnMetadata) :
    ∃ cols, keptColumns b l = .ok cols := by
  induction l with
  | nil => exact ⟨[], rfl⟩
  | cons c rest ih =>
    obtain ⟨k, hk⟩ := insertedColumnKept_ok b vss hvs c
    obtain ⟨cols, hcols⟩ := ih
    exact ⟨if k then c :: cols else cols, by simp [keptColumns, hk, hcols]⟩

theorem getInsertedColumns_ok (b : InsertQueryBuilder) (vss : List ValueSet)
    (hvs : getValueSets b = .ok vss) :
    ∃ cols, getInsertedColumns b = .ok cols := by
  unfold getInsertedColumns
  match h : b.expressionMap.metadata with
  | none => exact ⟨[], rfl⟩
  | some md => exact keptColumns_ok b vss hvs md.columns

theorem createColumnNamesExpression_ok (b : InsertQueryBuilder) (vss : List ValueSet)
    (hvs : getValueSets b = .ok vss) :
    ∃ s, createColumnNamesExpression b = .ok s := by
  obtain ⟨cols, hcols⟩ := getInsertedColumns_ok b vss hvs
  simp only [createColumnNamesExpression, hcols, hvs]
  split
  · exact ⟨_, rfl⟩
  · split
    · split
      · exact ⟨_, rfl⟩
      · exact ⟨_, rfl⟩
    · exact ⟨_, rfl⟩

theorem createValuesExpression_ok (b : InsertQueryBuilder) (vss : List ValueSet)
    (hvs : getValueSets b = .ok vss) (st : CompileState) :
    ∃ r, createValuesExpression b st = .ok r := by
  obtain ⟨cols, hcols⟩ := getInsertedColumns_ok b vss hvs
  simp only [createValuesExpression, hcols, hvs]
  split
  · split
    · exact ⟨_, rfl⟩
    · exact ⟨_, rfl⟩
  · split
    · exact ⟨_, rfl⟩
    · exact ⟨_, rfl⟩

/-! ## C2: empty value-set sequence short-circuits -/

/-- **C2.** If `execute()` is called with an empty value-set sequence, it
returns a fresh zero-effect `InsertResult` and performs no observable action:
the event log is empty (no query, no transaction interaction, no hook
broadcast, no runner acquisition or release). -/
theorem execute_empty_value_sets_short_circuits
    (b : InsertQueryBuilder) (env : QueryRunnerEnv)
    (h : b.expressionMap.valuesSet = ValuesSetInput.many []) :
    execute b env = ([], Except.ok {}) := by
  simp [execute, getValueSets, h]

/-- Witness for C2 at a concrete builder and environment. -/
theorem execute_empty_value_sets_short_circuits_witness :
    execute { driver := plainDriver,
              expressionMap := { valuesSet := ValuesSetInput.many [] } } {}
      = ([], Except.ok {}) :=
  execute_empty_value_sets_short_circuits _ _ rfl

/-! ## C4: returning capability is checked at configuration time -/

/-- **C4.** `returning(...)` on a dialect without returning/output support
fails with `ReturningStatementNotSupportedError` immediately, with no
compilation involved; on a supporting dialect it records the request and
returns the builder unchanged otherwise.  `output(...)` delegates to
`returning(...)` and behaves identically. -/
theorem returning_capability_checked_at_configuration_time
    (b : InsertQueryBuilder) (r : ReturningSpec) :
    (b.driver.returningSqlSupported = false →
      returning b r = Except.error TypeORMError.returningStatementNotSupported
      ∧ output b r = Except.error TypeORMError.returningStatementNotSupported)
    ∧ (b.driver.returningSqlSupported = true →
      returning b r
        = Except.ok { b with expressionMap := { b.expressionMap with returning := r } }
      ∧ output b r
        = Except.ok { b with expressionMap := { b.expressionMap with returning := r } }) := by
  constructor <;> intro h <;> simp [returning, output, h]

/-- Witness for C4: a returning-less driver rejects, a supporting one
accepts. -/
theorem returning_capability_witness :
    returning { driver := plainDriver } (ReturningSpec.raw "x")
      = Except.error TypeORMError.returningStatementNotSupported
    ∧ exceptIsOk (returning { driver := pgDriver } (ReturningSpec.raw "x")) = true := by
  refine ⟨((returning_capability_checked_at_configuration_time
    { driver := plainDriver } (ReturningSpec.raw "x")).1 rfl).1, ?_⟩
  rw [((returning_capability_checked_at_configuration_time
    { driver := pgDriver } (ReturningSpec.raw "x")).2 rfl).1]
  rfl

/-! ## C10: the string argument of orIgnore is coerced to a boolean -/

/-- **C10.** `orIgnore(s)` coerces its string argument to a boolean and
discards its text: for every nonempty `s` the resulting builder is exactly the
builder `orIgnore(true)` produces — hence every compilation of the two agrees
and no part of `s` can reach the compiled SQL — and `orIgnore("")` turns the
ignore policy off. -/
theorem orIgnore_string_coerced_to_boolean (b : InsertQueryBuilder) (s : String) :
    (s ≠ "" → orIgnore b (StrOrBool.str s) = orIgnore b (StrOrBool.bool true)
      ∧ ∀ st, createInsertExpression (orIgnore b (StrOrBool.str s)) st
            = createInsertExpression (orIgnore b (StrOrBool.bool true)) st)
    ∧ (orIgnore b (StrOrBool.str "")).expressionMap.onIgnore = false := by
  refine ⟨fun h => ?_, by simp [orIgnore, StrOrBool.truthy]⟩
  have hb : (s == "") = false := beq_eq_false_iff_ne.mpr h
  have heq : orIgnore b (StrOrBool.str s) = orIgnore b (StrOrBool.bool true) := by
    simp [orIgnore, StrOrBool.truthy, hb]
  exact ⟨heq, fun st => by rw [heq]⟩

/-- Witness for C10 at a concrete builder and string. -/
theorem orIgnore_string_coerced_witness :
    orIgnore bPg (StrOrBool.str "whatever") = orIgnore bPg (StrOrBool.bool true)
    ∧ (orIgnore bPg (StrOrBool.str "")).expressionMap.onIgnore = false :=
  ⟨((orIgnore_string_coerced_to_boolean bPg "whatever").1 (by decide)).1,
   (orIgnore_string_coerced_to_boolean bPg "whatever").2⟩

/-! ## Upsert on unsupported dialects (C3, C9) -/

theorem orUpdate_shape (b : InsertQueryBuilder) (arg : Option (OrUpdateObj ⊕ List String))
    (ct : Option ConflictTarget) :
    (orUpdate b arg ct).driver = b.driver
    ∧ (orUpdate b arg ct).expressionMap.valuesSet = b.expressionMap.valuesSet
    ∧ (orUpdate b arg ct).expressionMap.onUpdate.isSome = true := by
  match arg with
  | some (Sum.inr l) => exact ⟨rfl, rfl, rfl⟩
  | some (Sum.inl o) => exact ⟨rfl, rfl, rfl⟩
  | none => exact ⟨rfl, rfl, rfl⟩

theorem getValueSets_congr (b₁ b₂ : InsertQueryBuilder)
    (h : b₁.expressionMap.valuesSet = b₂.expressionMap.valuesSet) :
    getValueSets b₁ = getValueSets b₂ := by
  unfold getValueSets
  rw [h]

theorem anyOverrides_ok (b : InsertQueryBuilder) (vss : List ValueSet)
    (hvs : getValueSets b = .ok vss) (l : List ColumnMetadata) :
    ∃ o, anyOverrides b l = .ok o := by
  induction l with
  | nil => exact ⟨false, rfl⟩
  | cons c rest ih =>
    obtain ⟨o, ho⟩ := ih
    simp only [anyOverrides, isOverridingAutoIncrementBehavior, hvs]
    split
    · exact ⟨_, rfl⟩
    · exact ⟨_, ho⟩

theorem identityInsertCondition_ok (b : InsertQueryBuilder) (vss : List ValueSet)
    (hvs : getValueSets b = .ok vss) :
    ∃ o, identityInsertCondition b = .ok o := by
  unfold identityInsertCondition
  split
  · split
    · exact anyOverrides_ok b vss hvs _
    · exact ⟨false, rfl⟩
  · exact ⟨false, rfl⟩

/-- On a dialect without upsert support, a recorded structured update policy
makes SQL compilation fail with the generic unsupported-`onUpdate` error. -/
theorem compile_onUpdate_unsupported (b : InsertQueryBuilder) (vss : List ValueSet)
    (st : CompileState) (hstyle : b.driver.supportedUpsertType = none)
    (hupd : b.expressionMap.onUpdate.isSome = true)
    (hvs : getValueSets b = .ok vss) :
    createInsertExpression b st
      = Except.error (TypeORMError.typeormError
          "onUpdate is not supported by the current database driver") := by
  obtain ⟨⟨vf, st1⟩, hvf⟩ := createValuesExpression_ok b vss hvs st
  obtain ⟨ce, hce⟩ := createColumnNamesExpression_ok b vss hvs
  obtain ⟨ou, hou⟩ := Option.isSome_iff_exists.mp hupd
  have hup : upsertClause b
      = Except.error (TypeORMError.typeormError
          "onUpdate is not supported by the current database driver") := by
    simp only [upsertClause, hstyle, hou]
  simp only [createInsertExpression, createInsertExpressionCore, hvf, hvs, hce, hup]

/-- On a dialect without upsert support and without a structured update
policy, compilation succeeds (the ignore policy and a raw conflict clause are
silently dropped there). -/
theorem compile_ok_without_onUpdate (b : InsertQueryBuilder) (vss : List ValueSet)
    (st : CompileState) (hstyle : b.driver.supportedUpsertType = none)
    (hupd : b.expressionMap.onUpdate = none)
    (hvs : getValueSets b = .ok vss) :
    ∃ r, createInsertExpression b st = .ok r := by
  obtain ⟨⟨vf, st1⟩, hvf⟩ := createValuesExpression_ok b vss hvs st
  obtain ⟨ce, hce⟩ := createColumnNamesExpression_ok b vss hvs
  obtain ⟨w, hw⟩ := identityInsertCondition_ok b vss hvs
  have hup : upsertClause b = .ok [] := by
    simp only [upsertClause, hstyle, hupd]
  simp only [createInsertExpression, createInsertExpressionCore, hvf, hvs, hce, hup, hw]
  exact ⟨_, rfl⟩

/-- **C9.** `orUpdate(...)` never fails at configuration time — it is a total
state update that records the structured policy on every dialect — and the
capability mismatch for a dialect without upsert support surfaces only later,
when the SQL expression is compiled; `returning(...)`, in contrast, checks
capability at configuration time. -/
theorem orUpdate_never_throws_at_configuration_time
    (b : InsertQueryBuilder) (arg : Option (OrUpdateObj ⊕ List String))
    (ct : Option ConflictTarget) :
    (orUpdate b arg ct).expressionMap.onUpdate.isSome = true
    ∧ (b.driver.supportedUpsertType = none →
        ∀ vss st, getValueSets b = .ok vss →
          createInsertExpression (orUpdate b arg ct) st
            = Except.error (TypeORMError.typeormError
                "onUpdate is not supported by the current database driver"))
    ∧ (b.driver.returningSqlSupported = false →
        ∀ r, returning b r = Except.error TypeORMError.returningStatementNotSupported) := by
  obtain ⟨hdrv, hval, hupd⟩ := orUpdate_shape b arg ct
  refine ⟨hupd, fun hstyle vss st hvs => ?_, fun hret r => by simp [returning, hret]⟩
  refine compile_onUpdate_unsupported _ vss st ?_ hupd ?_
  · rw [hdrv]; exact hstyle
  · rw [getValueSets_congr _ b hval]; exact hvs

/-- Witness for C9 at a concrete builder. -/
theorem orUpdate_never_throws_witness :
    (orUpdate bNoUpsertIgnore none none).expressionMap.onUpdate.isSome = true
    ∧ createInsertExpression (orUpdate bNoUpsertIgnore none none) {}
        = Except.error (TypeORMError.typeormError
            "onUpdate is not supported by the current database driver") :=
  ⟨(orUpdate_never_throws_at_configuration_time bNoUpsertIgnore none none).1,
   (orUpdate_never_throws_at_configuration_time bNoUpsertIgnore none none).2.1
     rfl [[("name", Value.str "a")]] {} rfl⟩

/-- Counterexample for C3 as stated: on a dialect whose upsert style is
`none`, an ignore policy or a raw conflict clause — upsert requests other than
a plain insert — do not raise any error: compilation succeeds (the code only
rejects a structured `onUpdate` policy there). -/
theorem upsert_none_ignore_accepted_counterexample :
    exceptIsOk (createInsertExpression bNoUpsertIgnore {}) = true
    ∧ exceptIsOk (createInsertExpression bNoUpsertConflict {}) = true := by
  constructor <;> rfl

/-- If every compilation of the builder (whatever `extraReturningColumns`
mutation `execute` applied first) fails, the `try` body after the transaction
step dispatches no query. -/
theorem tryBodyAfterTxn_no_query (b : InsertQueryBuilder) (env : QueryRunnerEnv)
    (vss : List ValueSet) (started : Bool) (err : TypeORMError)
    (hcomp : ∀ (extra : List ColumnMetadata) (st : CompileState),
      createInsertExpression
        { b with expressionMap := { b.expressionMap with extraReturningColumns := extra } } st
        = Except.error err)
    (sql : String) (ps : List Value) :
    ExecEvent.query sql ps ∉ (tryBodyAfterTxn b env vss started).1 := by
  intro hmem
  simp only [tryBodyAfterTxn, hcomp] at hmem
  split at hmem <;> simp at hmem

/-- Lifting the previous lemma over the transaction step. -/
theorem tryBody_no_query (b : InsertQueryBuilder) (env : QueryRunnerEnv)
    (vss : List ValueSet) (err : TypeORMError)
    (hcomp : ∀ (extra : List ColumnMetadata) (st : CompileState),
      createInsertExpression
        { b with expressionMap := { b.expressionMap with extraReturningColumns := extra } } st
        = Except.error err)
    (sql : String) (ps : List Value) :
    ExecEvent.query sql ps ∉ (tryBody b env vss).1 := by
  intro hmem
  unfold tryBody at hmem
  split at hmem
  · split at hmem
    · simp at hmem
    · simp only [List.mem_cons] at hmem
      rcases hmem with h | h
      · exact ExecEvent.noConfusion h
      · exact tryBodyAfterTxn_no_query b env vss true err hcomp sql ps h
  · exact tryBodyAfterTxn_no_query b env vss false err hcomp sql ps hmem

/-- If every compilation of the builder fails, `execute()` dispatches no
query. -/
theorem execute_no_query (b : InsertQueryBuilder) (env : QueryRunnerEnv)
    (vss : List ValueSet) (err : TypeORMError) (hvs : getValueSets b = .ok vss)
    (hcomp : ∀ (extra : List ColumnMetadata) (st : CompileState),
      createInsertExpression
        { b with expressionMap := { b.expressionMap with extraReturningColumns := extra } } st
        = Except.error err)
    (sql : String) (ps : List Value) :
    ExecEvent.query sql ps ∉ (execute b env).1 := by
  intro hmem
  rcases htb : tryBody b env vss with ⟨evs, res, started⟩
  have hnq := tryBody_no_query b env vss err hcomp sql ps
  rw [htb] at hnq
  simp only [execute, hvs, htb] at hmem
  split at hmem
  · simp at hmem
  · repeat' split at hmem
    all_goals simp only [List.mem_append, List.mem_singleton, List.nil_append,
      List.append_nil, List.mem_cons, List.not_mem_nil, or_false, false_or] at hmem
    all_goals try casesm* _ ∨ _
    all_goals first | (exact hnq (by assumption)) | simp_all

/-- **C3 (amended).** On a dialect whose upsert style is `none`, only a
structured update policy (`orUpdate`) is rejected: compilation fails with the
generic `TypeORMError` whose message is "onUpdate is not supported by the
current database driver" (it does not name the dialect), and `execute()`
dispatches no SQL.  An ignore policy or a raw conflict clause is silently
dropped: compilation succeeds without an upsert clause. -/
theorem upsert_none_style_behaviour (b : InsertQueryBuilder) (vss : List ValueSet)
    (hstyle : b.driver.supportedUpsertType = none)
    (hvs : getValueSets b = .ok vss) :
    (b.expressionMap.onUpdate.isSome = true →
       (∀ st, createInsertExpression b st
          = Except.error (TypeORMError.typeormError
              "onUpdate is not supported by the current database driver"))
       ∧ ∀ env sql ps, ExecEvent.query sql ps ∉ (execute b env).1)
    ∧ (b.expressionMap.onUpdate = none →
       ∀ st, ∃ r, createInsertExpression b st = .ok r) := by
  refine ⟨fun hupd => ⟨fun st => compile_onUpdate_unsupported b vss st hstyle hupd hvs, ?_⟩,
    fun hupd st => compile_ok_without_onUpdate b vss st hstyle hupd hvs⟩
  intro env sql ps
  refine execute_no_query b env vss (TypeORMError.typeormError
    "onUpdate is not supported by the current database driver") hvs (fun extra st => ?_) sql ps
  exact compile_onUpdate_unsupported _ vss st hstyle hupd hvs

/-- Witness for the amended C3: on a no-upsert dialect, `orUpdate` makes the
compile fail while the ignore-policy builder compiles. -/
theorem upsert_none_style_behaviour_witness :
    (∀ st, createInsertExpression (orUpdate bNoUpsertIgnore none none) st
       = Except.error (TypeORMError.typeormError
           "onUpdate is not supported by the current database driver"))
    ∧ ∃ r, createInsertExpression bNoUpsertIgnore {} = .ok r :=
  ⟨fun st => ((upsert_none_style_behaviour (orUpdate bNoUpsertIgnore none none)
      [[("name", Value.str "a")]] rfl rfl).1 rfl).1 st,
   (upsert_none_style_behaviour bNoUpsertIgnore [[("name", Value.str "a")]] rfl rfl).2 rfl {}⟩

/-! ## C1: parameter/placeholder pairing -/

theorem paramIndices_append (a b : List Frag) :
    paramIndices (a ++ b) = paramIndices a ++ paramIndices b := by
  simp [paramIndices, List.filterMap_append]

theorem range'_split (s m n : Nat) :
    List.range' s (m + n) = List.range' s m ++ List.range' (s + m) n := by
  have h := List.range'_append s m n 1
  simp only [one_mul] at h
  rw [Nat.add_comm n m] at h
  exact h.symm

theorem ParamShape.refl_of_no_params (st : CompileState) (frags : List Frag)
    (h : paramIndices frags = []) : ParamShape st st frags :=
  ⟨[], by simp, by simp [h, List.range']⟩

theorem ParamShape.comp {st1 st2 st3 : CompileState} {f1 f2 : List Frag}
    (h1 : ParamShape st1 st2 f1) (h2 : ParamShape st2 st3 f2) :
    ParamShape st1 st3 (f1 ++ f2) := by
  obtain ⟨n1, hp1, hi1⟩ := h1
  obtain ⟨n2, hp2, hi2⟩ := h2
  refine ⟨n1 ++ n2, by rw [hp2, hp1, List.append_assoc], ?_⟩
  rw [paramIndices_append, hi1, hi2, hp1, List.length_append, List.length_append,
    range'_split]

theorem ParamShape.one (st : CompileState) (v : Value) :
    ParamShape st (createParameter v st).2 [(createParameter v st).1] := by
  refine ⟨[v], rfl, ?_⟩
  simp [createParameter, paramIndices, paramIdx, List.range']

set_option maxHeartbeats 1000000 in
theorem emitValue_shape (b : InsertQueryBuilder) (md : EntityMetadata)
    (vsl vsi : Nat) (vs : ValueSet) (column : ColumnMetadata) (st : CompileState) :
    ParamShape st (emitValue b md vsl vsi vs column st).2
      (emitValue b md vsl vsi vs column st).1 := by
  simp only [emitValue]
  repeat' split
  all_goals first
    | exact ParamShape.refl_of_no_params _ _ rfl
    | exact ParamShape.one _ _

theorem cellOpen_no_params (b : InsertQueryBuilder) (vsl ci : Nat) :
    paramIndices (cellOpen b vsl ci) = [] := by
  unfold cellOpen
  repeat' split
  all_goals rfl

theorem cellClose_no_params (b : InsertQueryBuilder) (vsl cl vsi ci : Nat) :
    paramIndices (cellClose b vsl cl vsi ci) = [] := by
  unfold cellClose
  repeat' split
  all_goals rfl

theorem emitCell_shape (b : InsertQueryBuilder) (md : EntityMetadata)
    (vsl cl vsi : Nat) (vs : ValueSet) (column : ColumnMetadata) (ci : Nat)
    (st : CompileState) :
    ParamShape st (emitCell b md vsl cl vsi vs column ci st).2
      (emitCell b md vsl cl vsi vs column ci st).1 := by
  unfold emitCell
  exact ParamShape.comp
    (ParamShape.comp (ParamShape.refl_of_no_params _ _ (cellOpen_no_params b vsl ci))
      (emitValue_shape b md vsl vsi vs column st))
    (ParamShape.refl_of_no_params _ _ (cellClose_no_params b vsl cl vsi ci))

theorem emitRowCells_shape (b : InsertQueryBuilder) (md : EntityMetadata)
    (vsl cl vsi : Nat) (vs : ValueSet) :
    ∀ (cols : List ColumnMetadata) (ci : Nat) (st : CompileState),
    ParamShape st (emitRowCells b md vsl cl vsi vs cols ci st).2
      (emitRowCells b md vsl cl vsi vs cols ci st).1 := by
  intro cols
  induction cols with
  | nil => intro ci st; exact ParamShape.refl_of_no_params _ _ rfl
  | cons c rest ih =>
    intro ci st
    exact ParamShape.comp (emitCell_shape b md vsl cl vsi vs c ci st) (ih (ci + 1) _)

theorem emitRows_shape (b : InsertQueryBuilder) (md : EntityMetadata) (vsl : Nat)
    (columns : List ColumnMetadata) :
    ∀ (rows : List ValueSet) (i : Nat) (st : CompileState),
    ParamShape st (emitRows b md vsl columns rows i st).2
      (emitRows b md vsl columns rows i st).1 := by
  intro rows
  induction rows with
  | nil => intro i st; exact ParamShape.refl_of_no_params _ _ rfl
  | cons vs rest ih =>
    intro i st
    exact ParamShape.comp (emitRowCells_shape b md vsl columns.length i vs columns 0 st)
      (ih (i + 1) _)

theorem emitRawValue_shape (b : InsertQueryBuilder) (v : Value) (st : CompileState) :
    ParamShape st (emitRawValue b v st).2 (emitRawValue b v st).1 := by
  simp only [emitRawValue]
  repeat' split
  all_goals first
    | exact ParamShape.refl_of_no_params _ _ rfl
    | exact ParamShape.one _ _

theorem emitRawCells_shape (b : InsertQueryBuilder) (vsl cl ii : Nat) :
    ∀ (cells : List (String × Value)) (ci : Nat) (st : CompileState),
    ParamShape st (emitRawCells b vsl cl ii cells ci st).2
      (emitRawCells b vsl cl ii cells ci st).1 := by
  intro cells
  induction cells with
  | nil => intro ci st; exact ParamShape.refl_of_no_params _ _ rfl
  | cons cell rest ih =>
    intro ci st
    obtain ⟨name, v⟩ := cell
    have hopen : paramIndices (if ci = 0 then [Frag.text "("] else []) = [] := by
      split <;> rfl
    have hclose : paramIndices
        (if ci = cl - 1 then
          if ii = vsl - 1 then [Frag.text ")"] else [Frag.text "), "]
        else [Frag.text ", "]) = [] := by
      repeat' split
      all_goals rfl
    exact ParamShape.comp (ParamShape.comp
      (ParamShape.comp (ParamShape.refl_of_no_params st _ hopen) (emitRawValue_shape b v st))
      (ParamShape.refl_of_no_params _ _ hclose)) (ih (ci + 1) _)

theorem emitRawRows_shape (b : InsertQueryBuilder) (vsl : Nat) :
    ∀ (rows : List ValueSet) (i : Nat) (st : CompileState),
    ParamShape st (emitRawRows b vsl rows i st).2 (emitRawRows b vsl rows i st).1 := by
  intro rows
  induction rows with
  | nil => intro i st; exact ParamShape.refl_of_no_params _ _ rfl
  | cons vs rest ih =>
    intro i st
    exact ParamShape.comp (emitRawCells_shape b vsl vs.length i vs 0 st) (ih (i + 1) _)

theorem renderFrags_mem_length (f : Frag) (l : List Frag) (h : f ∈ l) :
    f.render.length ≤ (renderFrags l).length := by
  induction l with
  | nil => cases h
  | cons g rest ih =>
    rw [renderFrags, String.length_append]
    rcases List.mem_cons.mp h with h' | h'
    · subst h'; exact Nat.le_add_right _ _
    · exact (ih h').trans (Nat.le_add_left _ _)

theorem param_not_mem_of_short_render (frags : List Frag)
    (h : (renderFrags frags).length < 11) (i : Nat) : Frag.param i ∉ frags := by
  intro hm
  have hlen := renderFrags_mem_length _ _ hm
  have h11 : 11 ≤ (Frag.param i).render.length := by
    show 11 ≤ (":orm_param_" ++ toString i).length
    rw [String.length_append]
    have : (":orm_param_" : String).length = 11 := rfl
    omega
  omega


theorem paramIndices_nil_of_no_params (frags : List Frag)
    (h : ∀ i, Frag.param i ∉ frags) : paramIndices frags = [] := by
  induction frags with
  | nil => rfl
  | cons f rest ih =>
    cases f with
    | text s =>
      have : paramIndices (Frag.text s :: rest) = paramIndices rest := by
        simp [paramIndices, List.filterMap_cons, paramIdx]
      rw [this]
      exact ih (fun i hi => h i (List.mem_cons_of_mem _ hi))
    | param i => exact absurd (List.mem_cons_self _ _) (h i)

theorem paramIndices_nil_of_render_empty (frags : List Frag)
    (h : renderFrags frags = "") : paramIndices frags = [] := by
  refine paramIndices_nil_of_no_params frags (fun i => ?_)
  refine param_not_mem_of_short_render frags ?_ i
  rw [h]
  decide

theorem ParamShape.of_empty_render {st st' : CompileState} {frags : List Frag}
    (hs : ParamShape st st' frags) (h : renderFrags frags = "()") :
    ParamShape st st' [] := by
  obtain ⟨new, hp, hi⟩ := hs
  have hnil : paramIndices frags = [] := by
    refine paramIndices_nil_of_no_params _ (fun i => ?_)
    refine param_not_mem_of_short_render frags ?_ i
    rw [h]
    decide
  rw [hnil] at hi
  have hlen : new.length = 0 := by
    by_contra hne
    have : List.range' st.params.length new.length ≠ [] := by
      cases hn : new.length with
      | zero => exact absurd hn hne
      | succ k => simp [List.range']
    exact this hi.symm
  have : new = [] := List.length_eq_zero.mp hlen
  subst this
  exact ⟨[], hp, by simp [paramIndices]⟩

theorem createValuesExpression_shape (b : InsertQueryBuilder) (st : CompileState)
    (frags : List Frag) (st' : CompileState)
    (h : createValuesExpression b st = .ok (frags, st')) :
    ParamShape st st' frags := by
  cases hvs : getValueSets b with
  | error e => simp [createValuesExpression, hvs] at h
  | ok vss =>
    cases hcols : getInsertedColumns b with
    | error e => simp [createValuesExpression, hvs, hcols] at h
    | ok cols =>
      simp only [createValuesExpression, hvs, hcols] at h
      split at h
      · split at h
        · rename_i hpar
          simp only [Except.ok.injEq, Prod.mk.injEq] at h
          obtain ⟨h1, h2⟩ := h
          subst h1; subst h2
          exact ParamShape.of_empty_render (emitRows_shape b _ vss.length cols vss 0 st) hpar
        · simp only [Except.ok.injEq, Prod.mk.injEq] at h
          obtain ⟨h1, h2⟩ := h
          subst h1; subst h2
          exact emitRows_shape b _ vss.length cols vss 0 st
      · split at h
        · rename_i hpar
          simp only [Except.ok.injEq, Prod.mk.injEq] at h
          obtain ⟨h1, h2⟩ := h
          subst h1; subst h2
          exact ParamShape.of_empty_render (emitRawRows_shape b vss.length vss 0 st) hpar
        · simp only [Except.ok.injEq, Prod.mk.injEq] at h
          obtain ⟨h1, h2⟩ := h
          subst h1; subst h2
          exact emitRawRows_shape b vss.length vss 0 st

theorem upsertClause_no_params (b : InsertQueryBuilder) (uf : List Frag)
    (h : upsertClause b = .ok uf) : paramIndices uf = [] := by
  unfold upsertClause at h
  repeat' split at h
  all_goals cases h
  all_goals rfl

theorem paramIndices_assemble (b : InsertQueryBuilder) (n : Nat) (vf : List Frag)
    (ce : String) (uf : List Frag) :
    paramIndices (assembleInsert b n vf ce uf) = paramIndices vf ++ paramIndices uf := by
  by_cases hvf : renderFrags vf = ""
  case pos =>
    have hnil : paramIndices vf = [] := paramIndices_nil_of_render_empty vf hvf
    simp only [assembleInsert]
    repeat' split
    all_goals simp_all [paramIndices, paramIdx, paramIndices_append]
  case neg =>
    simp only [assembleInsert]
    repeat' split
    all_goals simp_all [paramIndices, paramIdx, paramIndices_append]

theorem paramIndices_identityWrap (t : String) (q : List Frag) :
    paramIndices (identityWrap t q) = paramIndices q := by
  simp [identityWrap, paramIndices_append, paramIndices, paramIdx]

theorem createInsertExpressionCore_shape (b : InsertQueryBuilder) (st : CompileState)
    (frags : List Frag) (st' : CompileState)
    (h : createInsertExpressionCore b st = .ok (frags, st')) :
    ParamShape st st' frags := by
  unfold createInsertExpressionCore at h
  cases hv : createValuesExpression b st with
  | error e => rw [hv] at h; cases h
  | ok r =>
    obtain ⟨vf, st1⟩ := r
    rw [hv] at h
    cases hg : getValueSets b with
    | error e => rw [hg] at h; cases h
    | ok vss =>
      rw [hg] at h
      cases hc : createColumnNamesExpression b with
      | error e => rw [hc] at h; cases h
      | ok ce =>
        rw [hc] at h
        cases hu : upsertClause b with
        | error e => rw [hu] at h; cases h
        | ok uf =>
          rw [hu] at h
          simp only [Except.ok.injEq, Prod.mk.injEq] at h
          obtain ⟨h1, h2⟩ := h
          subst h1
          rw [← h2]
          obtain ⟨new, hp, hi⟩ := createValuesExpression_shape b st vf st1 hv
          refine ⟨new, hp, ?_⟩
          rw [paramIndices_assemble, upsertClause_no_params b uf hu, List.append_nil, hi]

theorem createInsertExpression_shape (b : InsertQueryBuilder) (st : CompileState)
    (frags : List Frag) (st' : CompileState)
    (h : createInsertExpression b st = .ok (frags, st')) :
    ParamShape st st' frags := by
  unfold createInsertExpression at h
  cases hcore : createInsertExpressionCore b st with
  | error e => rw [hcore] at h; cases h
  | ok r =>
    obtain ⟨q, st1⟩ := r
    rw [hcore] at h
    cases hw : identityInsertCondition b with
    | error e => rw [hw] at h; cases h
    | ok w =>
      rw [hw] at h
      simp only [Except.ok.injEq, Prod.mk.injEq] at h
      obtain ⟨h1, h2⟩ := h
      subst h1
      rw [← h2]
      obtain ⟨new, hp, hi⟩ := createInsertExpressionCore_shape b st q st1 hcore
      refine ⟨new, hp, ?_⟩
      split
      · rw [paramIndices_identityWrap, hi]
      · exact hi

/-- **C1.** For every successful compilation from a fresh parameter state, the
placeholders of the compiled statement reference exactly the entries of the
flat parameter array, in occurrence order (the `k`-th placeholder, reading the
SQL left to right, carries parameter index `k`, and there are exactly as many
placeholders as array entries); the pairing is unchanged when the optional
declare/select-output text fragments are joined around the INSERT. -/
theorem compiled_parameters_match_placeholders (b : InsertQueryBuilder)
    (lg : List (Nat × ValueSet)) (frags : List Frag) (st : CompileState)
    (h : createInsertExpression b { params := [], locallyGenerated := lg }
      = .ok (frags, st)) :
    paramIndices frags = List.range st.params.length
    ∧ ∀ d s2, paramIndices ([Frag.text d] ++ frags ++ [Frag.text s2])
        = List.range st.params.length := by
  obtain ⟨new, hp, hi⟩ := createInsertExpression_shape b _ frags st h
  simp only [List.nil_append] at hp
  have hfr : paramIndices frags = List.range st.params.length := by
    rw [hi, hp, List.range_eq_range']
    rfl
  refine ⟨hfr, fun d s2 => ?_⟩
  rw [paramIndices_append, paramIndices_append, hfr]
  simp [paramIndices, paramIdx]

/-- Witness for C1: the two-record postgres insert compiles with placeholders
`0, 1` matching its two-entry parameter array. -/
theorem compiled_parameters_match_placeholders_witness :
    ∃ frags st, createInsertExpression bPg {} = .ok (frags, st)
      ∧ paramIndices frags = List.range st.params.length := by
  have hok : exceptIsOk (createInsertExpression bPg {}) = true := by rfl
  cases h : createInsertExpression bPg {} with
  | error e => rw [h] at hok; exact Bool.noConfusion hok
  | ok r =>
    obtain ⟨frags, st⟩ := r
    exact ⟨frags, st, rfl, (compiled_parameters_match_placeholders bPg [] frags st h).1⟩

/-! ## C6: SQL Server identity-insert wrapper -/

theorem anyOverrides_eq (b : InsertQueryBuilder) (vss : List ValueSet)
    (hvs : getValueSets b = .ok vss) (l : List ColumnMetadata) :
    anyOverrides b l = .ok (l.any (fun c => c.isPrimary && c.isGenerated
      && decide (c.generationStrategy = some GenStrategy.increment)
      && vss.any (fun vs =>
           !(getEntityValue c vs == Value.undef)
           && !(getEntityValue c vs == Value.null)))) := by
  induction l with
  | nil => rfl
  | cons c rest ih =>
    simp only [anyOverrides, isOverridingAutoIncrementBehavior, hvs, List.any_cons]
    split
    · rename_i hB
      rw [hB]
      rfl
    · rename_i hB
      rw [Bool.not_eq_true] at hB
      rw [hB, ih]
      rfl

theorem identityInsertCondition_eq (b : InsertQueryBuilder) (md : EntityMetadata)
    (vss : List ValueSet) (hmeta : b.expressionMap.metadata = some md)
    (hkind : b.driver.kind = DriverKind.sqlserver)
    (hvs : getValueSets b = .ok vss) :
    identityInsertCondition b
      = .ok ((md.columns.filter (identityCheckSelected b)).any
          (fun c => c.isPrimary && c.isGenerated
            && decide (c.generationStrategy = some GenStrategy.increment)
            && vss.any (fun vs =>
                 !(getEntityValue c vs == Value.undef)
                 && !(getEntityValue c vs == Value.null)))) := by
  simp only [identityInsertCondition, hmeta]
  rw [if_pos hkind]
  exact anyOverrides_eq b vss hvs _

/-- **C6.** On SQL Server with schema metadata, the compiled statement is the
bare statement wrapped in `SET IDENTITY_INSERT … ON; …; SET IDENTITY_INSERT …
OFF` exactly when some selected column (kept by the explicit allow-list, or
flagged insertable) is a primary auto-increment-generated column that some
value set supplies with a non-`undefined`, non-`null` value; otherwise the
statement is emitted without any wrapper. -/
theorem identity_insert_wrapper_iff (b : InsertQueryBuilder) (md : EntityMetadata)
    (vss : List ValueSet) (q : List Frag) (st1 : CompileState) (st : CompileState)
    (hkind : b.driver.kind = DriverKind.sqlserver)
    (hmeta : b.expressionMap.metadata = some md)
    (hvs : getValueSets b = .ok vss)
    (hcore : createInsertExpressionCore b st = .ok (q, st1)) :
    ∃ w, identityInsertCondition b = .ok w
      ∧ createInsertExpression b st
          = .ok ((if w = true then identityWrap b.tableNameSql q else q), st1)
      ∧ (w = true ↔
          ∃ c ∈ md.columns, identityCheckSelected b c = true
            ∧ c.isPrimary = true ∧ c.isGenerated = true
            ∧ c.generationStrategy = some GenStrategy.increment
            ∧ ∃ vs ∈ vss, getEntityValue c vs ≠ Value.undef
                ∧ getEntityValue c vs ≠ Value.null) := by
  have hcond := identityInsertCondition_eq b md vss hmeta hkind hvs
  refine ⟨_, hcond, ?_, ?_⟩
  · unfold createInsertExpression
    rw [hcore, hcond]
  · simp only [List.any_eq_true, List.mem_filter,
      Bool.and_eq_true, decide_eq_true_eq, beq_iff_eq, Bool.not_eq_true',
      ne_eq]
    constructor
    · rintro ⟨c, ⟨hc, hsel⟩, ⟨⟨⟨hp, hg⟩, hs⟩, vs, hvsmem, hu, hn⟩⟩
      exact ⟨c, hc, hsel, hp, hg, hs, vs, hvsmem,
        beq_eq_false_iff_ne.mp hu, beq_eq_false_iff_ne.mp hn⟩
    · rintro ⟨c, hc, hsel, hp, hg, hs, vs, hvsmem, hu, hn⟩
      exact ⟨c, ⟨hc, hsel⟩, ⟨⟨⟨hp, hg⟩, hs⟩, vs, hvsmem,
        beq_eq_false_iff_ne.mpr hu, beq_eq_false_iff_ne.mpr hn⟩⟩

/-- Witness for C6: supplying `id := 5` on SQL Server yields the wrapped
statement. -/
theorem identity_insert_wrapper_witness :
    ∃ q st1, createInsertExpressionCore bMssqlIdentity {} = .ok (q, st1)
      ∧ createInsertExpression bMssqlIdentity {}
          = .ok (identityWrap bMssqlIdentity.tableNameSql q, st1) := by
  have hok : exceptIsOk (createInsertExpressionCore bMssqlIdentity {}) = true := rfl
  cases h : createInsertExpressionCore bMssqlIdentity {} with
  | error e => rw [h] at hok; exact Bool.noConfusion hok
  | ok r =>
    obtain ⟨q, st1⟩ := r
    obtain ⟨w, hw, heq, hiff⟩ := identity_insert_wrapper_iff bMssqlIdentity mdIdName
      [[("id", Value.int 5), ("name", Value.str "a")]] q st1 {} rfl rfl rfl h
    have hwt : w = true := by
      have : identityInsertCondition bMssqlIdentity = Except.ok true := rfl
      rw [this] at hw
      exact (Except.ok.injEq _ _ ▸ hw).symm ▸ rfl
    subst hwt
    rw [if_pos rfl] at heq
    exact ⟨q, st1, rfl, heq⟩

/-! ## C5: rollback on failure, original error preserved -/

set_option maxHeartbeats 1600000 in
theorem tryBodyAfterTxn_no_commit_unless_started (b : InsertQueryBuilder)
    (env : QueryRunnerEnv) (vss : List ValueSet) :
    ExecEvent.commit ∉ (tryBodyAfterTxn b env vss false).1 := by
  intro h
  simp only [tryBodyAfterTxn] at h
  repeat' split at h
  all_goals simp_all

set_option maxHeartbeats 1600000 in
theorem tryBodyAfterTxn_no_rollback (b : InsertQueryBuilder)
    (env : QueryRunnerEnv) (vss : List ValueSet) (started : Bool) :
    ExecEvent.rollback ∉ (tryBodyAfterTxn b env vss started).1 := by
  intro h
  simp only [tryBodyAfterTxn] at h
  repeat' split at h
  all_goals simp_all

set_option maxHeartbeats 1600000 in
/-- The closed form of `execute` on a nonempty value-set sequence with a
well-behaved `release`. -/
theorem execute_closed_form (b : InsertQueryBuilder) (env : QueryRunnerEnv)
    (vss : List ValueSet) (evs : List ExecEvent)
    (res : Except TypeORMError InsertResult) (started : Bool)
    (hvs : getValueSets b = .ok vss) (hne : ¬ vss.length = 0)
    (hrel : env.releaseResult = Except.ok ())
    (htb : tryBody b env vss = (evs, res, started)) :
    execute b env
      = ((if b.hasOwnQueryRunner then [] else [ExecEvent.obtainRunner])
          ++ ((evs ++ (match res with
                | .error _ => if started then [ExecEvent.rollback] else []
                | .ok _ => []))
              ++ (if b.hasOwnQueryRunner then [] else [ExecEvent.release])),
         res) := by
  simp only [execute, hvs, htb]
  rw [if_neg hne]
  cases res with
  | ok r =>
    cases hOwn : b.hasOwnQueryRunner <;> simp [hOwn, hrel]
  | error e =>
    cases started <;> cases hOwn : b.hasOwnQueryRunner <;> simp [hOwn, hrel]

/-- **C5.** For a nonempty insert whose `release` step is well-behaved: the
outcome of `execute()` is exactly the outcome of the `try` body — a rollback
failure can never mask it, since the rollback error is swallowed and never
consulted — and whenever the body failed after this orchestrator started the
transaction, a rollback is attempted; if a transaction was already active
(caller-managed), `execute()` performs neither rollback nor commit. -/
theorem rollback_on_failure_and_error_preserved (b : InsertQueryBuilder)
    (env : QueryRunnerEnv) (vss : List ValueSet) (evs : List ExecEvent)
    (res : Except TypeORMError InsertResult) (started : Bool)
    (hvs : getValueSets b = .ok vss) (hne : ¬ vss.length = 0)
    (hrel : env.releaseResult = Except.ok ())
    (htb : tryBody b env vss = (evs, res, started)) :
    (execute b env).2 = res
    ∧ (started = true → ∀ e, res = Except.error e →
        ExecEvent.rollback ∈ (execute b env).1)
    ∧ (env.isTransactionActive = true →
        ExecEvent.rollback ∉ (execute b env).1
        ∧ ExecEvent.commit ∉ (execute b env).1) := by
  have hclosed := execute_closed_form b env vss evs res started hvs hne hrel htb
  refine ⟨by rw [hclosed], fun hst e hres => ?_, fun hact => ?_⟩
  · rw [hclosed]
    subst hres
    simp [hst]
  · have hcond : ¬ (b.expressionMap.useTransaction = true
        ∧ env.isTransactionActive = false) := by
      simp [hact]
    unfold tryBody at htb
    rw [if_neg hcond] at htb
    simp only [Prod.mk.injEq] at htb
    obtain ⟨hevs, hres, hst⟩ := htb
    subst hst
    rw [hclosed]
    have hnr : ExecEvent.rollback ∉ evs := by
      rw [← hevs]; exact tryBodyAfterTxn_no_rollback b env vss false
    have hnc : ExecEvent.commit ∉ evs := by
      rw [← hevs]; exact tryBodyAfterTxn_no_commit_unless_started b env vss
    constructor <;> intro h <;> rcases List.mem_append.mp h with h | h
    · split at h <;> simp at h
    · rcases List.mem_append.mp h with h | h
      · rcases List.mem_append.mp h with h | h
        · exact hnr h
        · split at h <;> simp at h
      · split at h <;> simp at h
    · split at h <;> simp at h
    · rcases List.mem_append.mp h with h | h
      · rcases List.mem_append.mp h with h | h
        · exact hnc h
        · split at h <;> simp at h
      · split at h <;> simp at h

/-- Witness for C5: a failing query inside a self-started transaction is
rolled back and the query error is returned unchanged even though the
rollback itself fails. -/
theorem rollback_on_failure_witness :
    (execute { bPg with expressionMap :=
        { bPg.expressionMap with useTransaction := true } }
      { queryResult := Except.error (TypeORMError.external 7),
        rollbackResult := Except.error (TypeORMError.external 8) }).2
      = Except.error (TypeORMError.external 7)
    ∧ ExecEvent.rollback ∈ (execute { bPg with expressionMap :=
        { bPg.expressionMap with useTransaction := true } }
      { queryResult := Except.error (TypeORMError.external 7),
        rollbackResult := Except.error (TypeORMError.external 8) }).1 := by
  have h := rollback_on_failure_and_error_preserved
    { bPg with expressionMap := { bPg.expressionMap with useTransaction := true } }
    { queryResult := Except.error (TypeORMError.external 7),
      rollbackResult := Except.error (TypeORMError.external 8) }
    [[("name", Value.str "a")], [("name", Value.str "b")]] _ _ _
    rfl (by decide) rfl rfl
  exact ⟨h.1.trans rfl, h.2.1 rfl (TypeORMError.external 7) rfl⟩

/-! ## C7: local UUID generation, parameter binding and per-index caching -/

theorem lgBinding_lgSet_same (lg : List (Nat × ValueSet)) (i : Nat)
    (column : ColumnMetadata) (v : Value) :
    lgBinding (lgSet lg i column v) i column.propertyPath = some v := by
  unfold lgSet
  cases hlk : lg.lookup i with
  | some vs => simp [lgBinding, lgLookup, List.lookup, setEntityValue]
  | none => simp [lgBinding, lgLookup, List.lookup, setEntityValue]

theorem lgBinding_lgSet_other (lg : List (Nat × ValueSet)) (i : Nat)
    (column : ColumnMetadata) (v : Value) (j : Nat) (p : String)
    (h : j ≠ i ∨ p ≠ column.propertyPath) :
    lgBinding (lgSet lg i column v) j p = lgBinding lg j p := by
  by_cases hij : j = i
  · rcases h with h | h
    · exact absurd hij h
    · have hbp : (p == column.propertyPath) = false := beq_eq_false_iff_ne.mpr h
      cases hlk : lg.lookup i with
      | some vs =>
        unfold lgSet
        rw [hlk, hij]
        simp [lgBinding, lgLookup, List.lookup, setEntityValue, hbp, hlk]
      | none =>
        unfold lgSet
        rw [hlk, hij]
        simp [lgBinding, lgLookup, List.lookup, setEntityValue, hbp, hlk]
  · have hb : (j == i) = false := beq_eq_false_iff_ne.mpr hij
    cases hlk : lg.lookup i with
    | some vs =>
      unfold lgSet
      rw [hlk]
      simp [lgBinding, lgLookup, List.lookup, hb]
    | none =>
      unfold lgSet
      rw [hlk]
      simp [lgBinding, lgLookup, List.lookup, hb]

set_option maxHeartbeats 1600000 in
theorem emitValue_lg_preserve (b : InsertQueryBuilder) (md : EntityMetadata)
    (vsl vsi : Nat) (vs : ValueSet) (column : ColumnMetadata) (st : CompileState)
    (i : Nat) (p : String) (h : vsi ≠ i ∨ column.propertyPath ≠ p) :
    lgBinding (emitValue b md vsl vsi vs column st).2.locallyGenerated i p
      = lgBinding st.locallyGenerated i p := by
  simp only [emitValue]
  repeat' split
  all_goals first
    | rfl
    | exact lgBinding_lgSet_other _ _ _ _ _ _ (h.imp Ne.symm Ne.symm)

set_option maxHeartbeats 1600000 in
theorem emitValue_lg_preserve_of_resolved_present (b : InsertQueryBuilder)
    (md : EntityMetadata) (vsl vsi : Nat) (vs : ValueSet) (column : ColumnMetadata)
    (st : CompileState) (i : Nat) (p : String)
    (hres : resolvedValue b column vs ≠ Value.undef) :
    lgBinding (emitValue b md vsl vsi vs column st).2.locallyGenerated i p
      = lgBinding st.locallyGenerated i p := by
  simp only [emitValue]
  repeat' split
  all_goals first
    | rfl
    | simp_all

theorem emitValue_uuid (b : InsertQueryBuilder) (md : EntityMetadata)
    (vsl vsi : Nat) (vs : ValueSet) (column : ColumnMetadata) (st : CompileState)
    (hver : column.isVersion = false) (hdisc : column.isDiscriminator = false)
    (hgen : column.isGenerated = true)
    (hstrat : column.generationStrategy = some GenStrategy.uuid)
    (hnosup : b.driver.uuidGenerationSupported = false)
    (hval : getEntityValue column vs = Value.undef)
    (hprep : b.driver.prepareValue Value.undef column = Value.undef) :
    emitValue b md vsl vsi vs column st
      = ([Frag.param st.params.length],
         { params := st.params ++ [Value.str (b.uuidSource st.params.length)],
           locallyGenerated := lgSet st.locallyGenerated vsi column
             (Value.str (b.uuidSource st.params.length)) }) := by
  have hres : resolvedValue b column vs = Value.undef := by
    simp [resolvedValue, hval, Value.isFunc, hprep]
  simp only [emitValue, hres, hver, hdisc, hgen, hstrat, hnosup]
  simp [createParameter]

theorem getElem?_params_extend {st st' : CompileState} {frags : List Frag}
    (h : ParamShape st st' frags) (k : Nat) (a : Value)
    (hk : st.params[k]? = some a) : st'.params[k]? = some a := by
  obtain ⟨new, hp, _⟩ := h
  have hlt : k < st.params.length := by
    by_contra hge
    rw [List.getElem?_eq_none (by omega)] at hk
    cases hk
  rw [hp, List.getElem?_append, if_pos hlt]
  exact hk

theorem emitRowCells_lg_preserve (b : InsertQueryBuilder) (md : EntityMetadata)
    (vsl cl vsi : Nat) (vs : ValueSet) :
    ∀ (cols : List ColumnMetadata) (ci : Nat) (st : CompileState) (i : Nat) (p : String),
    (vsi ≠ i ∨ ∀ c ∈ cols, c.propertyPath ≠ p) →
    lgBinding (emitRowCells b md vsl cl vsi vs cols ci st).2.locallyGenerated i p
      = lgBinding st.locallyGenerated i p := by
  intro cols
  induction cols with
  | nil => intro ci st i p _; rfl
  | cons c rest ih =>
    intro ci st i p h
    have hcell : lgBinding (emitCell b md vsl cl vsi vs c ci st).2.locallyGenerated i p
        = lgBinding st.locallyGenerated i p := by
      refine emitValue_lg_preserve b md vsl vsi vs c st i p ?_
      rcases h with h | h
      · exact Or.inl h
      · exact Or.inr (h c (List.mem_cons_self c rest))
    have hrest := ih (ci + 1) (emitCell b md vsl cl vsi vs c ci st).2 i p
      (by
        rcases h with h | h
        · exact Or.inl h
        · exact Or.inr (fun c' hc' => h c' (List.mem_cons_of_mem c hc')))
    calc lgBinding (emitRowCells b md vsl cl vsi vs (c :: rest) ci st).2.locallyGenerated i p
        = lgBinding (emitCell b md vsl cl vsi vs c ci st).2.locallyGenerated i p := hrest
      _ = lgBinding st.locallyGenerated i p := hcell

theorem emitRowCells_lg_preserve_strong (b : InsertQueryBuilder) (md : EntityMetadata)
    (vsl cl vsi : Nat) (vs : ValueSet) :
    ∀ (cols : List ColumnMetadata) (ci : Nat) (st : CompileState) (i : Nat) (p : String),
    (vsi ≠ i ∨ ∀ c ∈ cols, c.propertyPath = p → resolvedValue b c vs ≠ Value.undef) →
    lgBinding (emitRowCells b md vsl cl vsi vs cols ci st).2.locallyGenerated i p
      = lgBinding st.locallyGenerated i p := by
  intro cols
  induction cols with
  | nil => intro ci st i p _; rfl
  | cons c rest ih =>
    intro ci st i p h
    have hcell : lgBinding (emitCell b md vsl cl vsi vs c ci st).2.locallyGenerated i p
        = lgBinding st.locallyGenerated i p := by
      rcases h with h | h
      · exact emitValue_lg_preserve b md vsl vsi vs c st i p (Or.inl h)
      · by_cases hp : c.propertyPath = p
        · exact emitValue_lg_preserve_of_resolved_present b md vsl vsi vs c st i p
            (h c (List.mem_cons_self c rest) hp)
        · exact emitValue_lg_preserve b md vsl vsi vs c st i p (Or.inr hp)
    have hrest := ih (ci + 1) (emitCell b md vsl cl vsi vs c ci st).2 i p
      (by
        rcases h with h | h
        · exact Or.inl h
        · exact Or.inr (fun c' hc' => h c' (List.mem_cons_of_mem c hc')))
    calc lgBinding (emitRowCells b md vsl cl vsi vs (c :: rest) ci st).2.locallyGenerated i p
        = lgBinding (emitCell b md vsl cl vsi vs c ci st).2.locallyGenerated i p := hrest
      _ = lgBinding st.locallyGenerated i p := hcell

theorem emitRows_lg_preserve_lt (b : InsertQueryBuilder) (md : EntityMetadata)
    (vsl : Nat) (columns : List ColumnMetadata) :
    ∀ (rows : List ValueSet) (i0 : Nat) (st : CompileState) (i : Nat) (p : String),
    i < i0 →
    lgBinding (emitRows b md vsl columns rows i0 st).2.locallyGenerated i p
      = lgBinding st.locallyGenerated i p := by
  intro rows
  induction rows with
  | nil => intro i0 st i p _; rfl
  | cons row rest ih =>
    intro i0 st i p hlt
    have hrow := emitRowCells_lg_preserve b md vsl columns.length i0 row columns 0 st i p
      (Or.inl (by omega))
    have hrest := ih (i0 + 1)
      (emitRowCells b md vsl columns.length i0 row columns 0 st).2 i p (by omega)
    calc lgBinding (emitRows b md vsl columns (row :: rest) i0 st).2.locallyGenerated i p
        = lgBinding (emitRowCells b md vsl columns.length i0 row columns 0 st).2.locallyGenerated i p := hrest
      _ = lgBinding st.locallyGenerated i p := hrow

theorem emitRows_lg_preserve_strong (b : InsertQueryBuilder) (md : EntityMetadata)
    (vsl : Nat) (columns : List ColumnMetadata) :
    ∀ (rows : List ValueSet) (i0 : Nat) (st : CompileState) (i : Nat) (p : String),
    (∀ (idx : Nat) row, rows[idx]? = some row →
      (i0 + idx ≠ i ∨ ∀ c ∈ columns, c.propertyPath = p → resolvedValue b c row ≠ Value.undef)) →
    lgBinding (emitRows b md vsl columns rows i0 st).2.locallyGenerated i p
      = lgBinding st.locallyGenerated i p := by
  intro rows
  induction rows with
  | nil => intro i0 st i p _; rfl
  | cons row rest ih =>
    intro i0 st i p h
    have hrow := emitRowCells_lg_preserve_strong b md vsl columns.length i0 row columns 0 st i p
      (by
        have h0 := h 0 row (by simp)
        rcases h0 with h0 | h0
        · exact Or.inl (by omega)
        · exact Or.inr h0)
    have hrest := ih (i0 + 1)
      (emitRowCells b md vsl columns.length i0 row columns 0 st).2 i p
      (by
        intro idx r hr
        have := h (idx + 1) r (by simpa using hr)
        rcases this with hx | hx
        · exact Or.inl (by omega)
        · exact Or.inr hx)
    calc lgBinding (emitRows b md vsl columns (row :: rest) i0 st).2.locallyGenerated i p
        = lgBinding (emitRowCells b md vsl columns.length i0 row columns 0 st).2.locallyGenerated i p := hrest
      _ = lgBinding st.locallyGenerated i p := hrow

theorem emitRowCells_uuid (b : InsertQueryBuilder) (md : EntityMetadata)
    (vsl cl vsi : Nat) (vs : ValueSet) (column : ColumnMetadata)
    (hver : column.isVersion = false) (hdisc : column.isDiscriminator = false)
    (hgen : column.isGenerated = true)
    (hstrat : column.generationStrategy = some GenStrategy.uuid)
    (hnosup : b.driver.uuidGenerationSupported = false)
    (hval : getEntityValue column vs = Value.undef)
    (hprep : b.driver.prepareValue Value.undef column = Value.undef) :
    ∀ (cols : List ColumnMetadata) (ci : Nat) (st : CompileState),
    column ∈ cols →
    (cols.map (fun c => c.propertyPath)).Nodup →
    ∃ k, (emitRowCells b md vsl cl vsi vs cols ci st).2.params[k]?
          = some (Value.str (b.uuidSource k))
      ∧ Frag.param k ∈ (emitRowCells b md vsl cl vsi vs cols ci st).1
      ∧ lgBinding (emitRowCells b md vsl cl vsi vs cols ci st).2.locallyGenerated
          vsi column.propertyPath = some (Value.str (b.uuidSource k)) := by
  intro cols
  induction cols with
  | nil => intro ci st hmem _; cases hmem
  | cons c rest ih =>
    intro ci st hmem hnd
    by_cases hc : c = column
    · subst hc
      have hcell := emitValue_uuid b md vsl vsi vs c st hver hdisc hgen hstrat hnosup
        hval hprep
      refine ⟨st.params.length, ?_, ?_, ?_⟩
      · refine getElem?_params_extend (emitRowCells_shape b md vsl cl vsi vs rest (ci + 1)
          (emitCell b md vsl cl vsi vs c ci st).2) st.params.length _ ?_
        show (emitValue b md vsl vsi vs c st).2.params[st.params.length]? = _
        rw [hcell]
        simp
      · refine List.mem_append.mpr (Or.inl ?_)
        show Frag.param st.params.length
          ∈ cellOpen b vsl ci ++ (emitValue b md vsl vsi vs c st).1
            ++ cellClose b vsl cl vsi ci
        rw [hcell]
        simp
      · have hpres := emitRowCells_lg_preserve b md vsl cl vsi vs rest (ci + 1)
          (emitCell b md vsl cl vsi vs c ci st).2 vsi c.propertyPath
          (by
            refine Or.inr (fun c' hc' => ?_)
            have hnotin : c.propertyPath ∉ rest.map (fun x => x.propertyPath) := by
              simpa using (List.nodup_cons.mp hnd).1
            intro hEq
            exact hnotin (hEq ▸ List.mem_map_of_mem _ hc')
          )
        calc lgBinding (emitRowCells b md vsl cl vsi vs (c :: rest) ci st).2.locallyGenerated
              vsi c.propertyPath
            = lgBinding (emitCell b md vsl cl vsi vs c ci st).2.locallyGenerated
                vsi c.propertyPath := hpres
          _ = some (Value.str (b.uuidSource st.params.length)) := by
              show lgBinding (emitValue b md vsl vsi vs c st).2.locallyGenerated
                vsi c.propertyPath = _
              rw [hcell]
              exact lgBinding_lgSet_same _ _ _ _
    · have hmem' : column ∈ rest := by
        rcases List.mem_cons.mp hmem with h | h
        · exact absurd h.symm hc
        · exact h
      obtain ⟨k, hparams, hfrag, hbind⟩ := ih (ci + 1)
        (emitCell b md vsl cl vsi vs c ci st).2 hmem' (List.nodup_cons.mp hnd).2
      exact ⟨k, hparams, List.mem_append.mpr (Or.inr hfrag), hbind⟩

theorem emitRows_uuid (b : InsertQueryBuilder) (md : EntityMetadata) (vsl : Nat)
    (columns : List ColumnMetadata) (column : ColumnMetadata)
    (hver : column.isVersion = false) (hdisc : column.isDiscriminator = false)
    (hgen : column.isGenerated = true)
    (hstrat : column.generationStrategy = some GenStrategy.uuid)
    (hnosup : b.driver.uuidGenerationSupported = false)
    (hprep : b.driver.prepareValue Value.undef column = Value.undef)
    (hmemc : column ∈ columns)
    (hpaths : (columns.map (fun c => c.propertyPath)).Nodup) :
    ∀ (rows : List ValueSet) (i0 : Nat) (st : CompileState) (j : Nat) (vs : ValueSet),
    rows[j]? = some vs →
    getEntityValue column vs = Value.undef →
    ∃ k, (emitRows b md vsl columns rows i0 st).2.params[k]?
          = some (Value.str (b.uuidSource k))
      ∧ Frag.param k ∈ (emitRows b md vsl columns rows i0 st).1
      ∧ lgBinding (emitRows b md vsl columns rows i0 st).2.locallyGenerated
          (i0 + j) column.propertyPath = some (Value.str (b.uuidSource k)) := by
  intro rows
  induction rows with
  | nil => intro i0 st j vs hj _; simp at hj
  | cons row rest ih =>
    intro i0 st j vs hj hval
    cases j with
    | zero =>
      have hrow : row = vs := by simpa using hj
      subst hrow
      obtain ⟨k, hparams, hfrag, hbind⟩ := emitRowCells_uuid b md vsl columns.length i0 row
        column hver hdisc hgen hstrat hnosup hval hprep columns 0 st hmemc hpaths
      refine ⟨k, ?_, List.mem_append.mpr (Or.inl hfrag), ?_⟩
      · exact getElem?_params_extend (emitRows_shape b md vsl columns rest (i0 + 1)
          (emitRowCells b md vsl columns.length i0 row columns 0 st).2) k _ hparams
      · rw [Nat.add_zero]
        calc lgBinding (emitRows b md vsl columns (row :: rest) i0 st).2.locallyGenerated
              i0 column.propertyPath
            = lgBinding (emitRowCells b md vsl columns.length i0 row columns 0 st).2.locallyGenerated
                i0 column.propertyPath :=
              emitRows_lg_preserve_lt b md vsl columns rest (i0 + 1) _ i0
                column.propertyPath (by omega)
          _ = some (Value.str (b.uuidSource k)) := hbind
    | succ j' =>
      have hj' : rest[j']? = some vs := by simpa using hj
      obtain ⟨k, hparams, hfrag, hbind⟩ := ih (i0 + 1)
        (emitRowCells b md vsl columns.length i0 row columns 0 st).2 j' vs hj' hval
      refine ⟨k, hparams, List.mem_append.mpr (Or.inr hfrag), ?_⟩
      have harith : i0 + (j' + 1) = (i0 + 1) + j' := by omega
      rw [harith]
      exact hbind

/-- **C7.** For a uuid-generated column on a dialect without native UUID
generation: whenever a value set supplies no value for the column, compilation
generates a fresh UUID (non-empty, by the generator's contract), binds it as
the parameter of that cell's placeholder (the placeholder's index `k` points
at the generated value in the flat array), and caches it in
`locallyGenerated` keyed by the value-set index; a value set that supplies a
value (one the driver's normalisation keeps defined) gets no cached entry at
all — generation is suppressed. -/
theorem uuid_generated_bound_and_cached (b : InsertQueryBuilder)
    (vss : List ValueSet) (cols : List ColumnMetadata) (column : ColumnMetadata)
    (frags : List Frag) (st : CompileState)
    (hvs : getValueSets b = .ok vss)
    (hcols : getInsertedColumns b = .ok cols)
    (hmem : column ∈ cols)
    (hpaths : (cols.map (fun c => c.propertyPath)).Nodup)
    (hver : column.isVersion = false) (hdisc : column.isDiscriminator = false)
    (hgen : column.isGenerated = true)
    (hstrat : column.generationStrategy = some GenStrategy.uuid)
    (hnosup : b.driver.uuidGenerationSupported = false)
    (hprep0 : b.driver.prepareValue Value.undef column = Value.undef)
    (huuid : ∀ n, b.uuidSource n ≠ "")
    (hcomp : createValuesExpression b {} = .ok (frags, st)) :
    (∀ (vsi : Nat) (vs : ValueSet), vss[vsi]? = some vs →
      getEntityValue column vs = Value.undef →
      ∃ k u, u = b.uuidSource k ∧ u ≠ ""
        ∧ st.params[k]? = some (Value.str u)
        ∧ Frag.param k ∈ frags
        ∧ lgBinding st.locallyGenerated vsi column.propertyPath = some (Value.str u))
    ∧ (∀ (j : Nat) (vs' : ValueSet), vss[j]? = some vs' →
        resolvedValue b column vs' ≠ Value.undef →
        lgBinding st.locallyGenerated j column.propertyPath = none) := by
  have hlen : cols.length > 0 := List.length_pos.mpr (List.ne_nil_of_mem hmem)
  simp only [createValuesExpression, hvs, hcols] at hcomp
  rw [if_pos hlen] at hcomp
  have hsupp : ∀ st0,
      (∀ (j : Nat) (vs' : ValueSet), vss[j]? = some vs' →
        resolvedValue b column vs' ≠ Value.undef →
        lgBinding (emitRows b (b.expressionMap.metadata.getD {}) vss.length cols vss 0
            st0).2.locallyGenerated j column.propertyPath
          = lgBinding st0.locallyGenerated j column.propertyPath) := by
    intro st0 j vs' hj hres
    refine emitRows_lg_preserve_strong b _ vss.length cols vss 0 st0 j
      column.propertyPath (fun idx row hrow => ?_)
    by_cases hidx : idx = j
    · subst hidx
      rw [hj] at hrow
      have hrow' : row = vs' := by simpa using hrow.symm
      subst hrow'
      refine Or.inr (fun c hc hpc => ?_)
      have hceq : c = column :=
        List.inj_on_of_nodup_map hpaths hc hmem hpc
      rw [hceq]
      exact hres
    · exact Or.inl (by omega)
  split at hcomp
  · rename_i hpar
    simp only [Except.ok.injEq, Prod.mk.injEq] at hcomp
    obtain ⟨h1, h2⟩ := hcomp
    subst h1
    constructor
    · intro vsi vs hrow hval
      obtain ⟨k, hparams, hfrag, hbind⟩ := emitRows_uuid b
        (b.expressionMap.metadata.getD {}) vss.length cols column hver hdisc hgen
        hstrat hnosup hprep0 hmem hpaths vss 0 {} vsi vs hrow hval
      exact absurd hfrag (param_not_mem_of_short_render _ (by rw [hpar]; decide) k)
    · intro j vs' hj hres
      rw [← h2]
      rw [hsupp {} j vs' hj hres]
      rfl
  · simp only [Except.ok.injEq, Prod.mk.injEq] at hcomp
    obtain ⟨h1, h2⟩ := hcomp
    subst h1
    constructor
    · intro vsi vs hrow hval
      obtain ⟨k, hparams, hfrag, hbind⟩ := emitRows_uuid b
        (b.expressionMap.metadata.getD {}) vss.length cols column hver hdisc hgen
        hstrat hnosup hprep0 hmem hpaths vss 0 {} vsi vs hrow hval
      refine ⟨k, b.uuidSource k, rfl, huuid k, ?_, ?_, ?_⟩
      · rw [← h2]; exact hparams
      · exact hfrag
      · rw [← h2]
        have : (0 : Nat) + vsi = vsi := by omega
        rw [← this]
        exact hbind
    · intro j vs' hj hres
      rw [← h2]
      rw [hsupp {} j vs' hj hres]
      rfl

/-- Witness for C7: on the sqlite-like builder, value set 0 (no `uid`) gets a
generated non-empty UUID bound as a parameter and cached at index 0, while
value set 1 (explicit `uid`) gets no cached entry. -/
theorem uuid_generated_bound_and_cached_witness :
    ∃ frags st, createValuesExpression bLiteUuid {} = .ok (frags, st)
      ∧ (∃ k u, u = bLiteUuid.uuidSource k ∧ u ≠ ""
          ∧ st.params[k]? = some (Value.str u)
          ∧ Frag.param k ∈ frags
          ∧ lgBinding st.locallyGenerated 0 "uid" = some (Value.str u))
      ∧ lgBinding st.locallyGenerated 1 "uid" = none := by
  have hok : exceptIsOk (createValuesExpression bLiteUuid {}) = true := rfl
  cases h : createValuesExpression bLiteUuid {} with
  | error e => rw [h] at hok; exact Bool.noConfusion hok
  | ok r =>
    obtain ⟨frags, st⟩ := r
    have huuid : ∀ n, bLiteUuid.uuidSource n ≠ "" := by
      intro n hEq
      rw [show bLiteUuid.uuidSource n = ("uuid-" : String) ++ toString n from rfl] at hEq
      have hd : ("uuid-" : String).data ++ (toString n).data = [] := by
        have := congrArg String.data hEq
        rwa [String.data_append] at this
      exact absurd (List.append_eq_nil.mp hd).1 (by decide)
    have hmain := uuid_generated_bound_and_cached bLiteUuid
      [[("name", Value.str "a")], [("uid", Value.str "u-set"), ("name", Value.str "b")]]
      [colUid, colName] colUid frags st rfl rfl (by decide) (by decide) rfl rfl rfl rfl
      rfl rfl huuid h
    refine ⟨frags, st, rfl, ?_, ?_⟩
    · exact hmain.1 0 [("name", Value.str "a")] rfl rfl
    · exact hmain.2 1 [("uid", Value.str "u-set"), ("name", Value.str "b")] rfl (by decide)

/-! ## C8: substring-occurrence counting -/

theorem suffixCleanB_spec (pat s : List Char) (h : suffixCleanB pat s = true) :
    ∀ k, 0 < k → k < pat.length → ¬ (pat.take k <:+ s) := by
  intro k hk1 hk2 hsuf
  have hall := List.all_eq_true.mp h k (List.mem_range.mpr hk2)
  rw [Bool.or_eq_true] at hall
  rcases hall with h0 | h0
  · exact absurd (beq_iff_eq.mp h0) (by omega)
  · rw [Bool.not_eq_eq_eq_not, Bool.not_true] at h0
    rw [← List.isSuffixOf_iff_suffix] at hsuf
    rw [h0] at hsuf
    cases hsuf

theorem cleanForB_spec (pat s : List Char) (h : cleanForB pat s = true) :
    CleanFor pat s := by
  rw [cleanForB, Bool.and_eq_true] at h
  obtain ⟨h1, h2⟩ := h
  exact ⟨beq_iff_eq.mp h1, suffixCleanB_spec pat s h2⟩

theorem upsertCleanB_spec (s : List Char) (h : upsertCleanB s = true) : UpsertClean s := by
  rw [upsertCleanB, Bool.and_eq_true] at h
  obtain ⟨h1, h2⟩ := h
  exact ⟨cleanForB_spec _ _ h1, cleanForB_spec _ _ h2⟩

theorem countOcc_append (pat A B : List Char)
    (h : ∀ k, 0 < k → k < pat.length → ¬ (pat.take k <:+ A)) :
    countOcc pat (A ++ B) = countOcc pat A + countOcc pat B := by
  induction A with
  | nil =>
    simp [countOcc]
  | cons a A' ih =>
    have h' : ∀ k, 0 < k → k < pat.length → ¬ (pat.take k <:+ A') := by
      intro k hk1 hk2 hsuf
      exact h k hk1 hk2 (hsuf.trans (List.suffix_cons a A'))
    have hiff : (pat <+: a :: (A' ++ B)) ↔ (pat <+: a :: A') := by
      constructor
      · intro hp
        by_cases hl : pat.length ≤ (a :: A').length
        · exact List.prefix_of_prefix_length_le hp (List.prefix_append (a :: A') B) hl
        · push_neg at hl
          exfalso
          have h1 : pat.take (a :: A').length <+: a :: (A' ++ B) :=
            ( List.take_prefix _ pat).trans hp
          have hlen : (pat.take (a :: A').length).length = (a :: A').length := by
            rw [List.length_take]
            omega
          have h2 : pat.take (a :: A').length = a :: A' :=
            (List.prefix_of_prefix_length_le h1 (List.prefix_append (a :: A') B)
              (by omega)).eq_of_length hlen
          refine h (a :: A').length (by simp) hl ?_
          rw [h2]
      · intro hp
        exact hp.trans (List.prefix_append (a :: A') B)
    show (if pat <+: a :: (A' ++ B) then 1 else 0) + countOcc pat (A' ++ B)
        = ((if pat <+: a :: A' then 1 else 0) + countOcc pat A') + countOcc pat B
    rw [ih h']
    by_cases hc : pat <+: a :: A'
    · rw [if_pos (hiff.mpr hc), if_pos hc]
      omega
    · rw [if_neg (fun hx => hc (hiff.mp hx)), if_neg hc]
      omega

theorem renderFrags_append (a b : List Frag) :
    renderFrags (a ++ b) = renderFrags a ++ renderFrags b := by
  induction a with
  | nil => simp [renderFrags]
  | cons f rest ih => simp [renderFrags, ih, String.append_assoc]

theorem upsertClause_ignore (b : InsertQueryBuilder)
    (hstyle : b.driver.supportedUpsertType = some UpsertType.onConflictDoUpdate)
    (hignore : b.expressionMap.onIgnore = true) :
    upsertClause b = Except.ok [Frag.text " ON CONFLICT DO NOTHING "] := by
  simp only [upsertClause, hstyle]
  rw [if_pos hignore]

theorem identityInsertCondition_not_mssql (b : InsertQueryBuilder)
    (hns : b.driver.kind ≠ DriverKind.sqlserver) :
    identityInsertCondition b = Except.ok false := by
  unfold identityInsertCondition
  split
  · rw [if_neg hns]
  · rfl

theorem assembleInsert_ignore_shape (b : InsertQueryBuilder) (n : Nat)
    (vf : List Frag) (ce : String)
    (hnm : b.driver.kind ≠ DriverKind.mysql)
    (hna : b.driver.kind ≠ DriverKind.auroraDataApi)
    (hno : b.driver.kind ≠ DriverKind.oracle)
    (hns : b.driver.kind ≠ DriverKind.sqlserver)
    (hce : ce ≠ "") (hvf : renderFrags vf ≠ "") :
    assembleInsert b n vf ce [Frag.text " ON CONFLICT DO NOTHING "]
      = [Frag.text "INSERT ", Frag.text ("INTO " ++ b.tableNameSql),
         Frag.text ("(" ++ ce ++ ")"), Frag.text " VALUES "]
        ++ vf ++ [Frag.text " ON CONFLICT DO NOTHING "]
        ++ (if truthyOptStr (some (createReturningExpression b)) = true
              ∧ (b.driver.kind = DriverKind.postgres ∨ b.driver.kind = DriverKind.oracle
                 ∨ b.driver.kind = DriverKind.cockroach) then
              [Frag.text (" RETURNING " ++ createReturningExpression b)]
            else []) := by
  have ha : ¬ (b.driver.kind = DriverKind.oracle ∧ n > 1) := fun hx => hno hx.1
  have hb : ¬ (b.driver.kind = DriverKind.mysql ∨ b.driver.kind = DriverKind.auroraDataApi) := by
    rintro (h | h)
    · exact hnm h
    · exact hna h
  have hc : ¬ (truthyOptStr (some (createReturningExpression b)) = true
      ∧ b.driver.kind = DriverKind.sqlserver) := fun hx => hns hx.2
  simp only [assembleInsert, if_neg ha, if_neg hb, if_pos hce, if_neg hc, if_pos hvf,
    Option.getD_some]
  simp [List.append_assoc]

set_option maxHeartbeats 1600000 in
/-- **C8.** On a dialect whose upsert style is on-conflict-do-update (so not a
MySQL/Aurora, Oracle or SQL Server driver class), compiling with the ignore
policy set produces SQL containing exactly one `ON CONFLICT DO NOTHING` clause
and no `ON DUPLICATE KEY UPDATE` text, regardless of whether a raw conflict
clause or a structured update policy was also configured, provided the
user-controlled pieces (table name, column list, VALUES body, returning
expression) are themselves free of either clause text and of any dangerous
boundary prefix. -/
theorem ignore_policy_single_on_conflict_do_nothing
    (b : InsertQueryBuilder) (st st1 stf : CompileState)
    (vss : List ValueSet) (vf : List Frag) (ce : String) (frags : List Frag)
    (hstyle : b.driver.supportedUpsertType = some UpsertType.onConflictDoUpdate)
    (hignore : b.expressionMap.onIgnore = true)
    (hnm : b.driver.kind ≠ DriverKind.mysql)
    (hna : b.driver.kind ≠ DriverKind.auroraDataApi)
    (hno : b.driver.kind ≠ DriverKind.oracle)
    (hns : b.driver.kind ≠ DriverKind.sqlserver)
    (hvs : getValueSets b = Except.ok vss)
    (hvf : createValuesExpression b st = Except.ok (vf, st1))
    (hce : createColumnNamesExpression b = Except.ok ce)
    (hcene : ce ≠ "") (hvfne : renderFrags vf ≠ "")
    (hctbl : UpsertClean b.tableNameSql.data)
    (hcce : UpsertClean ce.data)
    (hcvf : UpsertClean (renderFrags vf).data)
    (hcret : UpsertClean (createReturningExpression b).data)
    (hcomp : createInsertExpression b st = Except.ok (frags, stf)) :
    countOcc patConflictNothing (renderFrags frags).data = 1
    ∧ countOcc patDupKey (renderFrags frags).data = 0 := by
  have hup := upsertClause_ignore b hstyle hignore
  have hid := identityInsertCondition_not_mssql b hns
  have hcore : createInsertExpressionCore b st
      = Except.ok (assembleInsert b vss.length vf ce [Frag.text " ON CONFLICT DO NOTHING "],
          st1) := by
    simp only [createInsertExpressionCore, hvf, hvs, hce, hup]
  have hfr : frags = assembleInsert b vss.length vf ce [Frag.text " ON CONFLICT DO NOTHING "] := by
    simp only [createInsertExpression, hcore, hid] at hcomp
    simp only [Bool.false_eq_true, if_false, Except.ok.injEq, Prod.mk.injEq] at hcomp
    exact hcomp.1.symm
  subst hfr
  rw [assembleInsert_ignore_shape b vss.length vf ce hnm hna hno hns hcene hvfne]
  by_cases hret : truthyOptStr (some (createReturningExpression b)) = true
      ∧ (b.driver.kind = DriverKind.postgres ∨ b.driver.kind = DriverKind.oracle
         ∨ b.driver.kind = DriverKind.cockroach)
  · rw [if_pos hret]
    have hdata : (renderFrags
        ([Frag.text "INSERT ", Frag.text ("INTO " ++ b.tableNameSql),
          Frag.text ("(" ++ ce ++ ")"), Frag.text " VALUES "]
         ++ vf ++ [Frag.text " ON CONFLICT DO NOTHING "]
         ++ [Frag.text (" RETURNING " ++ createReturningExpression b)])).data
        = "INSERT ".data ++ ("INTO ".data ++ (b.tableNameSql.data ++ ("(".data
          ++ (ce.data ++ (")".data ++ (" VALUES ".data ++ ((renderFrags vf).data
          ++ (" ON CONFLICT DO NOTHING ".data ++ (" RETURNING ".data
          ++ (createReturningExpression b).data))))))))) := by
      simp [renderFrags_append, renderFrags, Frag.render, String.data_append,
        String.append_empty, List.append_assoc]
    rw [hdata]
    constructor
    · rw [countOcc_append patConflictNothing ("INSERT ".data) _
            (suffixCleanB_spec _ _ (by decide)),
          countOcc_append patConflictNothing ("INTO ".data) _
            (suffixCleanB_spec _ _ (by decide)),
          countOcc_append patConflictNothing (b.tableNameSql.data) _ hctbl.1.2,
          countOcc_append patConflictNothing ("(".data) _
            (suffixCleanB_spec _ _ (by decide)),
          countOcc_append patConflictNothing (ce.data) _ hcce.1.2,
          countOcc_append patConflictNothing (")".data) _
            (suffixCleanB_spec _ _ (by decide)),
          countOcc_append patConflictNothing (" VALUES ".data) _
            (suffixCleanB_spec _ _ (by decide)),
          countOcc_append patConflictNothing ((renderFrags vf).data) _ hcvf.1.2,
          countOcc_append patConflictNothing (" ON CONFLICT DO NOTHING ".data) _
            (suffixCleanB_spec _ _ (by decide)),
          countOcc_append patConflictNothing (" RETURNING ".data) _
            (suffixCleanB_spec _ _ (by decide)),
          hctbl.1.1, hcce.1.1, hcvf.1.1, hcret.1.1]
      decide
    · rw [countOcc_append patDupKey ("INSERT ".data) _
            (suffixCleanB_spec _ _ (by decide)),
          countOcc_append patDupKey ("INTO ".data) _
            (suffixCleanB_spec _ _ (by decide)),
          countOcc_append patDupKey (b.tableNameSql.data) _ hctbl.2.2,
          countOcc_append patDupKey ("(".data) _
            (suffixCleanB_spec _ _ (by decide)),
          countOcc_append patDupKey (ce.data) _ hcce.2.2,
          countOcc_append patDupKey (")".data) _
            (suffixCleanB_spec _ _ (by decide)),
          countOcc_append patDupKey (" VALUES ".data) _
            (suffixCleanB_spec _ _ (by decide)),
          countOcc_append patDupKey ((renderFrags vf).data) _ hcvf.2.2,
          countOcc_append patDupKey (" ON CONFLICT DO NOTHING ".data) _
            (suffixCleanB_spec _ _ (by decide)),
          countOcc_append patDupKey (" RETURNING ".data) _
            (suffixCleanB_spec _ _ (by decide)),
          hctbl.2.1, hcce.2.1, hcvf.2.1, hcret.2.1]
      decide
  · rw [if_neg hret]
    have hdata : (renderFrags
        ([Frag.text "INSERT ", Frag.text ("INTO " ++ b.tableNameSql),
          Frag.text ("(" ++ ce ++ ")"), Frag.text " VALUES "]
         ++ vf ++ [Frag.text " ON CONFLICT DO NOTHING "] ++ ([] : List Frag))).data
        = "INSERT ".data ++ ("INTO ".data ++ (b.tableNameSql.data ++ ("(".data
          ++ (ce.data ++ (")".data ++ (" VALUES ".data ++ ((renderFrags vf).data
          ++ " ON CONFLICT DO NOTHING ".data))))))) := by
      simp [renderFrags_append, renderFrags, Frag.render, String.data_append,
        String.append_empty, List.append_assoc]
    rw [hdata]
    constructor
    · rw [countOcc_append patConflictNothing ("INSERT ".data) _
            (suffixCleanB_spec _ _ (by decide)),
          countOcc_append patConflictNothing ("INTO ".data) _
            (suffixCleanB_spec _ _ (by decide)),
          countOcc_append patConflictNothing (b.tableNameSql.data) _ hctbl.1.2,
          countOcc_append patConflictNothing ("(".data) _
            (suffixCleanB_spec _ _ (by decide)),
          countOcc_append patConflictNothing (ce.data) _ hcce.1.2,
          countOcc_append patConflictNothing (")".data) _
            (suffixCleanB_spec _ _ (by decide)),
          countOcc_append patConflictNothing (" VALUES ".data) _
            (suffixCleanB_spec _ _ (by decide)),
          countOcc_append patConflictNothing ((renderFrags vf).data) _ hcvf.1.2,
          hctbl.1.1, hcce.1.1, hcvf.1.1]
      decide
    · rw [countOcc_append patDupKey ("INSERT ".data) _
            (suffixCleanB_spec _ _ (by decide)),
          countOcc_append patDupKey ("INTO ".data) _
            (suffixCleanB_spec _ _ (by decide)),
          countOcc_append patDupKey (b.tableNameSql.data) _ hctbl.2.2,
          countOcc_append patDupKey ("(".data) _
            (suffixCleanB_spec _ _ (by decide)),
          countOcc_append patDupKey (ce.data) _ hcce.2.2,
          countOcc_append patDupKey (")".data) _
            (suffixCleanB_spec _ _ (by decide)),
          countOcc_append patDupKey (" VALUES ".data) _
            (suffixCleanB_spec _ _ (by decide)),
          countOcc_append patDupKey ((renderFrags vf).data) _ hcvf.2.2,
          hctbl.2.1, hcce.2.1, hcvf.2.1]
      decide

set_option maxHeartbeats 1600000 in
/-- Witness for C8: a postgres builder with the ignore policy, a raw conflict
clause and a structured update policy all configured compiles to SQL with
exactly one `ON CONFLICT DO NOTHING` occurrence and no
`ON DUPLICATE KEY UPDATE`. -/
theorem ignore_policy_single_on_conflict_do_nothing_witness :
    countOcc patConflictNothing (sqlOfCompiled (createInsertExpression bPgIgnoreAll {})).data = 1
    ∧ countOcc patDupKey (sqlOfCompiled (createInsertExpression bPgIgnoreAll {})).data = 0 := by
  have hvc : valuesCleanCheck (createValuesExpression bPgIgnoreAll {}) = true := by decide
  have hcc : columnsCleanCheck (createColumnNamesExpression bPgIgnoreAll) = true := by decide
  have hok : exceptIsOk (createInsertExpression bPgIgnoreAll {}) = true := by decide
  have hvsok : getValueSets bPgIgnoreAll
      = Except.ok [[("name", Value.str "a")], [("name", Value.str "b")]] := rfl
  cases hvf : createValuesExpression bPgIgnoreAll {} with
  | error e => rw [hvf] at hvc; simp [valuesCleanCheck] at hvc
  | ok p =>
    obtain ⟨vf, st1⟩ := p
    rw [hvf] at hvc
    simp only [valuesCleanCheck, Bool.and_eq_true] at hvc
    obtain ⟨hvc1, hvc2⟩ := hvc
    have hcvf := upsertCleanB_spec _ hvc1
    have hvfne : renderFrags vf ≠ "" := by
      intro hx
      rw [hx] at hvc2
      simp at hvc2
    cases hce : createColumnNamesExpression bPgIgnoreAll with
    | error e => rw [hce] at hcc; simp [columnsCleanCheck] at hcc
    | ok ce =>
      rw [hce] at hcc
      simp only [columnsCleanCheck, Bool.and_eq_true] at hcc
      obtain ⟨hcc1, hcc2⟩ := hcc
      have hcce := upsertCleanB_spec _ hcc1
      have hcene : ce ≠ "" := by
        intro hx
        rw [hx] at hcc2
        simp at hcc2
      cases hcomp : createInsertExpression bPgIgnoreAll {} with
      | error e => rw [hcomp] at hok; exact Bool.noConfusion hok
      | ok q =>
        obtain ⟨frags, stf⟩ := q
        have hmain := ignore_policy_single_on_conflict_do_nothing bPgIgnoreAll {} st1 stf
          [[("name", Value.str "a")], [("name", Value.str "b")]] vf ce frags
          rfl rfl (by decide) (by decide) (by decide) (by decide)
          hvsok hvf hce hcene hvfne
          (upsertCleanB_spec _ (by decide))
          hcce hcvf
          (upsertCleanB_spec _ (by decide))
          hcomp
        simpa [sqlOfCompiled] using hmain

end TypeormInsert
